import Mathlib

/-!
# Verification of the jsgrids data-aggregation pipeline (`src/lib/libraries.ts`)

A shallow embedding of the library-aggregation module of the jsgrids
repository.  The module validates declarative YAML records with `yup`
schemas and enriches them with data from GitHub, the npm registry and
Bundlephobia, caching every fetched payload.

Modelling conventions:
* JavaScript runtime values are modelled by the inductive type `JsVal`
  (`undefined`, `null`, `NaN`, booleans, numbers, strings, arrays,
  objects).  JS numbers are modelled as integers; no claim depends on
  fractional values.  A property whose value is `undefined` is
  identified with an absent property (the `yup` cast drops
  `undefined`-valued fields when rebuilding objects, and property reads
  cannot distinguish the two).
* The `yup` schema combinators used by the source
  (`mixed().when`, `string()`, `string().url()`, `string().matches`,
  `boolean()`, `number()`, `object()`, `concat`, `required`) are
  embedded by validator functions that perform yup's cast followed by
  its type/constraint checks, per yup 0.32 semantics (the version the
  source's `yup.Asserts` API pins):
  - `when(key, {is, then, otherwise})` resolves `key` against the
    *parent* object value, as documented ("a sibling field");
  - object schemas accept unknown keys (no `noUnknown()` is used by the
    source) and copy them to the cast output;
  - object schemas have an automatic default built from their shape, so
    an absent nested object casts to an object of field defaults;
  - string casts stringify non-array primitives, boolean casts accept
    the strings/numbers matching `/^(true|1)$/i` and `/^(false|0)$/i`.
  Error-message texts of yup itself are stand-ins (no claim depends on
  them); messages built by the source module are reproduced verbatim.
* External effects (the key/value cache, the rate-limited fetcher) are
  passed explicitly: the cache as an association list, the fetcher as a
  function from URL to a response or an error.  Each run also produces
  a trace of events (cache reads, cache writes, fetches) so that
  claims about "no fetch happens" or "no cache write happens" are
  statements about the trace.
* Concurrency (`Promise.all`) is modelled by sequential processing in
  file order; the claims settled against the model do not depend on
  the interleaving, only on per-record dataflow and fail-fast
  rejection.
-/

/-! ## JavaScript values -/

/-- A JavaScript runtime value, as needed by the module under study. -/
inductive JsVal where
  | vundefined
  | vnull
  | vnan
  | vbool (b : Bool)
  | vnum (n : Int)
  | vstr (s : String)
  | varr (elems : List JsVal)
  | vobj (fields : List (String × JsVal))

/-- First-occurrence lookup of a property in an object's field list. -/
def lookupField (k : String) : List (String × JsVal) → Option JsVal
  | [] => none
  | (n, v) :: rest => if n == k then some v else lookupField k rest

/-- JS property read `v[k]`: `undefined` on a missing key or a non-object. -/
def jsGet (v : JsVal) (k : String) : JsVal :=
  match v with
  | .vobj fs => (lookupField k fs).getD .vundefined
  | _ => .vundefined

/-- JS property write on a field list: overwrite the first occurrence in
place (JS keeps the original insertion slot) or append a fresh key. -/
def setField (k : String) (w : JsVal) : List (String × JsVal) → List (String × JsVal)
  | [] => [(k, w)]
  | (n, v) :: rest => if n == k then (n, w) :: rest else (n, v) :: setField k w rest

/-- JS property assignment `v[k] = w` (no-op on non-objects). -/
def objSet (v : JsVal) (k : String) (w : JsVal) : JsVal :=
  match v with
  | .vobj fs => .vobj (setField k w fs)
  | _ => v

/-- Spread `{ ...base, ...more }`: assign `more`'s fields into `base`
left to right (later keys win, existing keys keep their slot). -/
def spreadInto (base : List (String × JsVal)) : List (String × JsVal) → List (String × JsVal)
  | [] => base
  | (n, v) :: rest => spreadInto (setField n v base) rest

/-- The fields of an object value (`[]` for non-objects). -/
def objFields : JsVal → List (String × JsVal)
  | .vobj fs => fs
  | _ => []

/-- JS truthiness. -/
def truthy : JsVal → Bool
  | .vundefined => false
  | .vnull => false
  | .vnan => false
  | .vbool b => b
  | .vnum n => n != 0
  | .vstr s => s ≠ ""
  | .varr _ => true
  | .vobj _ => true

/-- `String(v)`: JS stringification.  Arrays stringify by joining their
elements; since no claim and no reachable code path stringifies an
array, a placeholder is used for them. -/
def jsToString : JsVal → String
  | .vundefined => "undefined"
  | .vnull => "null"
  | .vnan => "NaN"
  | .vbool b => if b then "true" else "false"
  | .vnum n => toString n
  | .vstr s => s
  | .varr _ => "<array>"
  | .vobj _ => "[object Object]"

/-- `v.length`: a number for arrays and strings, `undefined` otherwise. -/
def jsLen : JsVal → JsVal
  | .varr l => .vnum l.length
  | .vstr s => .vnum s.length
  | _ => .vundefined

/-- JS `v < k` for a numeric right operand: `false` whenever the left
operand is not a number (`undefined`/`NaN` comparisons are false; no
reachable operand is a string). -/
def jsLtNum (v : JsVal) (k : Int) : Bool :=
  match v with
  | .vnum n => n < k
  | _ => false

/-- JS `k + v` where `k` is a number: `NaN` when `v` is not a number
(the only non-number operand reachable here is `undefined`). -/
def jsAddIntLen (k : Int) (v : JsVal) : JsVal :=
  match v with
  | .vnum n => .vnum (k + n)
  | _ => .vnan

/-- Strict equality `v === s` against a string literal. -/
def jsStrEq (v : JsVal) (s : String) : Bool :=
  match v with
  | .vstr t => t == s
  | _ => false

/-- Whether a value is exactly the boolean `true` (strict `=== true`). -/
def isTrueVal : JsVal → Bool
  | .vbool b => b
  | _ => false

/-- Whether a value is `undefined`. -/
def isUndefined : JsVal → Bool
  | .vundefined => true
  | _ => false

/-- Whether a value is a string (JS `typeof v === "string"`). -/
def isStringVal : JsVal → Bool
  | .vstr _ => true
  | _ => false

/-! ## Character/string utilities (structurally recursive so that
concrete runs reduce inside the kernel) -/

/-- ASCII lower-casing of one character. -/
def lowerChar (c : Char) : Char :=
  if 'A' ≤ c ∧ c ≤ 'Z' then Char.ofNat (c.toNat + 32) else c

/-- ASCII lower-casing of a string. -/
def lowerStr (s : String) : String :=
  ⟨s.data.map lowerChar⟩

/-- Regex `\s` (the whitespace characters relevant to the inputs). -/
def isSpaceChar (c : Char) : Bool :=
  c = ' ' ∨ c = '\t' ∨ c = '\n' ∨ c = '\r'

/-- Regex `\w`: `[A-Za-z0-9_]`. -/
def isWordChar (c : Char) : Bool :=
  ('a' ≤ c ∧ c ≤ 'z') ∨ ('A' ≤ c ∧ c ≤ 'Z') ∨ ('0' ≤ c ∧ c ≤ '9') ∨ c = '_'

/-- Regex `\d`. -/
def isDigitChar (c : Char) : Bool :=
  '0' ≤ c ∧ c ≤ '9'

/-- Whether a `/` occurs before the last position of the list; used for
the pattern `^\S+\/\S+$` (a slash with at least one character on each
side). -/
def slashNotLast : List Char → Bool
  | [] => false
  | [_] => false
  | c :: rest => c = '/' ∨ slashNotLast rest

/-- The `githubRepo` pattern `^\S+\/\S+$`: every character non-space and
some `/` strictly inside the string. -/
def matchesRepoPat (s : String) : Bool :=
  s.data.all (fun c => ¬ isSpaceChar c) &&
    (match s.data with
     | [] => false
     | _ :: rest => slashNotLast rest)

/-- JS `String.prototype.split(",")`; empty segments are preserved and
the empty string splits to `[""]`. -/
def splitComma : List Char → List (List Char)
  | [] => [[]]
  | c :: rest =>
    if c = ',' then [] :: splitComma rest
    else
      match splitComma rest with
      | seg :: segs => (c :: seg) :: segs
      | [] => [[c]]

/-- Whether `cs` starts with `pat`. -/
def startsWithL : List Char → List Char → Bool
  | [], _ => true
  | _, [] => false
  | p :: ps, c :: cs => p == c && startsWithL ps cs

/-- Whether `pat` occurs as a contiguous substring of `cs` (the test of
a literal regex such as `/rel="last"/`). -/
def containsSub (pat : List Char) : List Char → Bool
  | [] => startsWithL pat []
  | cs@(_ :: rest) => startsWithL pat cs || containsSub pat rest

/-- Digits to a natural number. -/
def natOfDigits (ds : List Char) : Nat :=
  ds.foldl (fun n c => n * 10 + (c.toNat - 48)) 0

/-- The regex `\bpage=(\d+)`: scan left to right for a position at a
word boundary where `page=` is followed by at least one digit, and
return the value of the maximal digit run (the capture group). -/
def findPage (prev : Option Char) : List Char → Option Nat
  | [] => none
  | cs@(c :: rest) =>
    if (match prev with
        | none => true
        | some p => ¬ isWordChar p) &&
       startsWithL "page=".data cs &&
       (cs.drop 5).takeWhile isDigitChar ≠ [] then
      some (natOfDigits ((cs.drop 5).takeWhile isDigitChar))
    else
      findPage (some c) rest

/-- JS `Number(s)` restricted to optionally-signed integer literals
(after yup's removal of whitespace); other strings give `NaN`.
Fractional literals do not occur in any input considered here. -/
def parseIntStr (cs : List Char) : Option Int :=
  match cs with
  | [] => none
  | '-' :: ds => if ds ≠ [] ∧ ds.all isDigitChar then some (-(natOfDigits ds : Int)) else none
  | '+' :: ds => if ds ≠ [] ∧ ds.all isDigitChar then some ((natOfDigits ds : Int)) else none
  | ds => if ds.all isDigitChar then some ((natOfDigits ds : Int)) else none

/-! ## The yup schemas of `src/lib/libraries.ts` (lines 14-89)

Each field validator takes the *parent* object value (needed by the
`when` conditions, which resolve their key against the parent) and the
field value, and returns the cast value or a validation error. -/

/-- The type of an embedded yup field schema. -/
abbrev FieldV := JsVal → JsVal → Except String JsVal

/-- `yup.string()`: cast (stringify non-array primitives; arrays fail
the type check; `null` fails nullability; `undefined` passes). -/
def yupString : FieldV := fun _ v =>
  match v with
  | .vundefined => .ok .vundefined
  | .vnull => .error "this cannot be null"
  | .vstr s => .ok (.vstr s)
  | .varr _ => .error "this must be a `string` type"
  | w => .ok (.vstr (jsToString w))

/-- `yup.string().required()`: as `yup.string()` but `undefined`,
`null` and the empty string are rejected. -/
def yupStringRequired : FieldV := fun p v =>
  match yupString p v with
  | .error e => .error e
  | .ok .vundefined => .error "this is a required field"
  | .ok (.vstr s) => if s = "" then .error "this is a required field" else .ok (.vstr s)
  | .ok w => .ok w

/-- An approximation of yup's URL regular expression: a scheme
(`http://`, `https://` or `ftp://`) followed by at least one
non-space character.  No claim depends on its exact extension. -/
def isUrlLike (s : String) : Bool :=
  (startsWithL "http://".data s.data || startsWithL "https://".data s.data ||
     startsWithL "ftp://".data s.data) &&
    s.data.all (fun c => ¬ isSpaceChar c) &&
    s.length ≥ 10

/-- `yup.string().url()`: the url test skips `undefined` and (per
`excludeEmptyString`) the empty string. -/
def yupStringUrl : FieldV := fun p v =>
  match yupString p v with
  | .error e => .error e
  | .ok (.vstr s) =>
    if s = "" then .ok (.vstr s)
    else if isUrlLike s then .ok (.vstr s) else .error "this must be a valid URL"
  | .ok w => .ok w

/-- `githubRepoSchema = yup.string().matches(/^\S+\/\S+$/, "Must be a
username/repo pair")` (lines 26-28).  The pattern test skips
`undefined` but not the empty string. -/
def githubRepoSchema : FieldV := fun p v =>
  match yupString p v with
  | .error e => .error e
  | .ok (.vstr s) =>
    if matchesRepoPat s then .ok (.vstr s) else .error "Must be a username/repo pair"
  | .ok w => .ok w

/-- `yup.boolean()` (optional): cast accepts booleans and any value
stringifying to `/^(true|1)$/i` or `/^(false|0)$/i`; `undefined`
passes; everything else fails the boolean type check. -/
def yupBoolean : FieldV := fun _ v =>
  match v with
  | .vundefined => .ok .vundefined
  | .vnull => .error "this cannot be null"
  | .vbool b => .ok (.vbool b)
  | w =>
    if lowerStr (jsToString w) = "true" ∨ jsToString w = "1" then .ok (.vbool true)
    else if lowerStr (jsToString w) = "false" ∨ jsToString w = "0" then .ok (.vbool false)
    else .error "this must be a `boolean` type"

/-- `yup.number()`: numbers pass; numeric strings are cast (whitespace
removed first); `NaN`, booleans, arrays, objects and non-numeric
strings fail; `undefined` passes. -/
def yupNumber : FieldV := fun _ v =>
  match v with
  | .vundefined => .ok .vundefined
  | .vnull => .error "this cannot be null"
  | .vnum n => .ok (.vnum n)
  | .vstr s =>
    match parseIntStr (s.data.filter (fun c => ¬ isSpaceChar c)) with
    | some n => .ok (.vnum n)
    | none => .error "this must be a `number` type"
  | _ => .error "this must be a `number` type"

/-- Lines 14-18:
`yup.mixed().when("booleanOrUrl", { is: v => typeof v === "string",
then: yup.string().url(), otherwise: yup.boolean().optional() })`.
The `when` key `"booleanOrUrl"` is resolved against the parent object
(the `frameworks` mapping), where no such sibling exists in normal
input, so the condition reads `undefined` and the `otherwise` branch
applies. -/
def booleanOrUrl : FieldV := fun parent v =>
  if isStringVal (jsGet parent "booleanOrUrl") then yupStringUrl parent v
  else yupBoolean parent v

/-- Lines 20-24: the same construction with key `"booleanOrString"` and
a plain string `then` branch. -/
def booleanOrString : FieldV := fun parent v =>
  if isStringVal (jsGet parent "booleanOrString") then yupString parent v
  else yupBoolean parent v

/-- Validate the known fields of an object shape left to right,
reading each field from the parent object; `undefined` cast results
are dropped from the output (yup only materialises defined fields). -/
def validateKnown (parent : JsVal) : List (String × FieldV) → Except String (List (String × JsVal))
  | [] => .ok []
  | (name, fv) :: rest =>
    match fv parent (jsGet parent name) with
    | .error e => .error (name ++ ": " ++ e)
    | .ok w =>
      match validateKnown parent rest with
      | .error e => .error e
      | .ok kvs => .ok (if isUndefined w then kvs else (name, w) :: kvs)

/-- The key list of a shape. -/
def shapeKeys (shape : List (String × FieldV)) : List String :=
  shape.map (fun kv => kv.1)

/-- `yup.object(shape).validateSync`: `null` fails; `undefined` casts
to the automatic default built from the shape; objects validate their
known fields and keep unknown keys verbatim (no `noUnknown()` is used
anywhere in the source). -/
def validateObjectWith (shape : List (String × FieldV)) (v : JsVal) : Except String JsVal :=
  match v with
  | .vnull => .error "this cannot be null"
  | .vundefined =>
    match validateKnown (.vobj []) shape with
    | .error e => .error e
    | .ok kvs => .ok (.vobj kvs)
  | .vobj fields =>
    match validateKnown v shape with
    | .error e => .error e
    | .ok kvs =>
      .ok (.vobj (kvs ++ fields.filter (fun kv => ¬ (shapeKeys shape).contains kv.1)))
  | _ => .error "this must be a `object` type"

/-- A nested object field (ignores the parent of the enclosing object;
`when` keys resolve inside the nested object itself). -/
def objField (shape : List (String × FieldV)) : FieldV := fun _ v =>
  validateObjectWith shape v

/-- Modelled from the spec: the `Features` constant of
`src/lib/features.ts` is not part of the provided sources; the spec
only states that it is a fixed, closed mapping whose keys are the
feature names.  The validator is therefore parametric in the key list
(mirroring `Object.keys(Features)`), and this representative list is
used for concrete evaluations. -/
def Features : List String :=
  ["filtering", "sorting", "pagination"]

/-- Line 89: `allowedFeatures = new Set(Object.keys(Features))` — built
by the source module but never used by it. -/
def allowedFeatures : List String :=
  Features

/-- Lines 30-37: the `frameworks` object schema over the six fixed
framework names. -/
def frameworksSchema : List (String × FieldV) :=
  [("vanilla", booleanOrUrl), ("react", booleanOrUrl), ("vue", booleanOrUrl),
   ("angular", booleanOrUrl), ("jquery", booleanOrUrl), ("ember", booleanOrUrl)]

/-- Lines 53-57: the `features` object schema generated from the keys
of `Features`. -/
def featuresSchema (featureKeys : List String) : List (String × FieldV) :=
  featureKeys.map (fun key => (key, booleanOrString))

/-- Lines 42-58: `yamlSchema`. -/
def yamlSchema (featureKeys : List String) : List (String × FieldV) :=
  [("title", yupStringRequired),
   ("description", yupStringRequired),
   ("homeUrl", yupStringUrl),
   ("demoUrl", yupStringUrl),
   ("githubRepo", githubRepoSchema),
   ("npmPackage", yupString),
   ("ignoreBundlephobia", yupBoolean),
   ("license", yupString),
   ("revenueModel", yupString),
   ("frameworks", objField frameworksSchema),
   ("features", objField (featuresSchema featureKeys))]

/-- Lines 64-73: the `github` enrichment block schema. -/
def githubBlockSchema : List (String × FieldV) :=
  [("url", yupStringUrl), ("stars", yupNumber), ("forks", yupNumber),
   ("openIssues", yupNumber), ("watchers", yupNumber), ("subscribers", yupNumber),
   ("network", yupNumber), ("contributors", yupNumber)]

/-- Lines 74-77: the `npm` enrichment block schema. -/
def npmBlockSchema : List (String × FieldV) :=
  [("url", yupStringUrl), ("downloads", yupNumber)]

/-- Lines 78-82: the `bundlephobia` enrichment block schema. -/
def bundlephobiaBlockSchema : List (String × FieldV) :=
  [("url", yupStringUrl), ("rawSize", yupNumber), ("gzipSize", yupNumber)]

/-- Lines 61-84: `libraryInfoSchema = yamlSchema.concat(...)`; `concat`
appends the new fields after the base schema's. -/
def libraryInfoSchema (featureKeys : List String) : List (String × FieldV) :=
  yamlSchema featureKeys ++
    [("id", yupStringRequired),
     ("github", objField githubBlockSchema),
     ("npm", objField npmBlockSchema),
     ("bundlephobia", objField bundlephobiaBlockSchema)]

/-- `yamlSchema.validateSync(obj)` (line 107). -/
def validateYaml (featureKeys : List String) (doc : JsVal) : Except String JsVal :=
  validateObjectWith (yamlSchema featureKeys) doc

/-- `libraryInfoSchema.validateSync(v)` (lines 111 and 227). -/
def validateLibraryInfo (featureKeys : List String) (v : JsVal) : Except String JsVal :=
  validateObjectWith (libraryInfoSchema featureKeys) v

/-- Whether a computation succeeded (the validation verdict). -/
def exOk {α : Type} : Except String α → Bool
  | .ok _ => true
  | .error _ => false

/-! ## External collaborators: cache and rate-limited fetcher

Modelled from the spec: `src/lib/cache.ts` and the `throttledFetch`
helper of `src/lib/utils.ts` are not part of the provided sources.  The
spec fixes their interfaces: `get(key) -> payload | absent`,
`set(key, payload) -> void`, and `fetch(url) -> { data, headers }`
where only the `link` header is ever read.  They are modelled
accordingly; every access is recorded in an event trace. -/

/-- The key/value cache, an association list of decoded payloads. -/
abbrev Cache := List (String × JsVal)

/-- `cache.get(key)`: the stored payload or `undefined`. -/
def cacheGet (c : Cache) (k : String) : JsVal :=
  (lookupField k c).getD .vundefined

/-- `cache.set(key, value)`. -/
def cacheSet (c : Cache) (k : String) (v : JsVal) : Cache :=
  setField k v c

/-- An observable action of one pipeline run. -/
inductive Event where
  | cacheRead (key : String)
  | cacheWrite (key : String)
  | fetch (url : String)
  deriving DecidableEq, Repr

/-- Whether an event is a cache write. -/
def isWriteEvent : Event → Bool
  | .cacheWrite _ => true
  | _ => false

/-- Whether an event is an external fetch. -/
def isFetchEvent : Event → Bool
  | .fetch _ => true
  | _ => false

/-- The fetcher's response `{ data, headers }`; `link` is
`headers.get("link")` (`none` models a `null` result). -/
structure Response where
  data : JsVal
  link : Option String

/-- A property read on the response object itself (`const data: any =
res; data.xyz` in the npm and Bundlephobia branches): the response has
exactly the fields `data` and `headers`, so any other read yields
`undefined`. -/
def responseField (r : Response) (k : String) : JsVal :=
  if k == "data" then r.data else .vundefined

/-- A rejected fetch: `msg` is the string rendering `${err}` of the
thrown value, `responseStatus` is `err.response.status` when the error
carries a response (`none` models an absent `err.response`). -/
structure FetchErr where
  msg : String
  responseStatus : Option Int

/-- The rate-limited fetcher. -/
abbrev Fetch := String → Except FetchErr Response

/-- The outcome of one enrichment sub-procedure: a result or a thrown
error, together with the cache as left behind and the event trace. -/
structure Step (α : Type) where
  result : Except String α
  cache : Cache
  events : List Event

/-! ## The enrichment orchestrator (`getLibraries`, lines 92-239) -/

/-- The GitHub repo-metadata endpoint (line 120). -/
def repoApiUrl (repo : String) : String :=
  "https://api.github.com/repos/" ++ repo

/-- The GitHub contributors endpoint with `per_page=100` (lines 140-141). -/
def contributorsUrl (repo : String) : String :=
  "https://api.github.com/repos/" ++ repo ++ "/contributors?per_page=" ++ toString (100 : Int)

/-- The npm downloads endpoint (line 182). -/
def npmApiUrl (name : String) : String :=
  "https://api.npmjs.org/downloads/point/last-week/" ++ name

/-- The Bundlephobia size endpoint (line 205). -/
def bundlephobiaApiUrl (name : String) : String :=
  "https://bundlephobia.com/api/size?package=" ++ name

/-- Lines 114-134: the repository-metadata lookup.  On a cache miss the
repo is fetched; a `full_name` differing from the declared repo is a
hard error thrown *before* the cache write, and the enclosing catch
wraps any thrown value as "Error getting GitHub data for ...". -/
def githubInfo (fetch : Fetch) (c : Cache) (repo id : String) : Step JsVal :=
  let key1 := "gh-" ++ repo ++ "-info"
  let data := cacheGet c key1
  if truthy data then ⟨.ok data, c, [.cacheRead key1]⟩
  else
    match fetch (repoApiUrl repo) with
    | .error e =>
      ⟨.error ("Error getting GitHub data for " ++ id ++ ": " ++ e.msg), c,
       [.cacheRead key1, .fetch (repoApiUrl repo)]⟩
    | .ok res =>
      if jsStrEq (jsGet res.data "full_name") repo then
        ⟨.ok res.data, cacheSet c key1 res.data,
         [.cacheRead key1, .fetch (repoApiUrl repo), .cacheWrite key1]⟩
      else
        ⟨.error ("Error getting GitHub data for " ++ id ++ ": Error: GitHub repo " ++ repo ++
            " has moved to " ++ jsToString (jsGet res.data "full_name")), c,
         [.cacheRead key1, .fetch (repoApiUrl repo)]⟩

/-- Lines 136-160: the contributor-count lookup.  On a cache miss the
first page (page size 100) is fetched; if fewer than 100 entries come
back or there is no `link` header the count is the number of entries;
otherwise the `rel="last"` part of the `link` header is matched with
`/\bpage=(\d+)/`, the last page is fetched and the count is
`100 * (lastPage - 1) + (entries on the last page)`. -/
def githubStats (fetch : Fetch) (c : Cache) (repo id : String) : Step JsVal :=
  let key2 := "gh-" ++ repo ++ "-contributors"
  let stats := cacheGet c key2
  if truthy stats then ⟨.ok stats, c, [.cacheRead key2]⟩
  else
    let pageSize : Int := 100
    let url := contributorsUrl repo
    match fetch url with
    | .error e =>
      ⟨.error ("Error getting GitHub stats for " ++ id ++ ": " ++ e.msg), c,
       [.cacheRead key2, .fetch url]⟩
    | .ok res1 =>
      if jsLtNum (jsLen res1.data) pageSize ||
         !(match res1.link with
           | none => false
           | some s => s ≠ "") then
        let stats := JsVal.vobj [("contributors", jsLen res1.data)]
        ⟨.ok stats, cacheSet c key2 stats, [.cacheRead key2, .fetch url, .cacheWrite key2]⟩
      else
        let header := (match res1.link with
          | none => []
          | some s => splitComma s.data)
        let part := (header.find? (fun s => containsSub ("rel=" ++ "\"last\"").data s)).getD []
        let lastPage : Int := (match findPage none part with
          | some n => (n : Int)
          | none => 0)
        match fetch (url ++ "&page=" ++ toString lastPage) with
        | .error e =>
          ⟨.error ("Error getting GitHub stats for " ++ id ++ ": " ++ e.msg), c,
           [.cacheRead key2, .fetch url, .fetch (url ++ "&page=" ++ toString lastPage)]⟩
        | .ok res2 =>
          let total := jsAddIntLen (pageSize * (lastPage - 1)) (jsLen res2.data)
          let stats := JsVal.vobj [("contributors", total)]
          ⟨.ok stats, cacheSet c key2 stats,
           [.cacheRead key2, .fetch url, .fetch (url ++ "&page=" ++ toString lastPage),
            .cacheWrite key2]⟩

/-- Lines 162-171: the merged `github` block. -/
def githubBlockOf (data stats : JsVal) : JsVal :=
  .vobj [("url", jsGet data "html_url"),
         ("stars", jsGet data "stargazers_count"),
         ("forks", jsGet data "forks_count"),
         ("openIssues", jsGet data "open_issues_count"),
         ("watchers", jsGet data "watchers_count"),
         ("subscribers", jsGet data "subscribers_count"),
         ("network", jsGet data "network_count"),
         ("contributors", jsGet stats "contributors")]

/-- Lines 114-172: the repository-statistics sub-procedure; `none`
means the branch was skipped because `githubRepo` is not set. -/
def githubPart (fetch : Fetch) (c : Cache) (item : JsVal) (id : String) :
    Step (Option JsVal) :=
  if truthy (jsGet item "githubRepo") then
    let repo := jsToString (jsGet item "githubRepo")
    match githubInfo fetch c repo id with
    | ⟨.error e, c1, ev1⟩ => ⟨.error e, c1, ev1⟩
    | ⟨.ok data, c1, ev1⟩ =>
      match githubStats fetch c1 repo id with
      | ⟨.error e, c2, ev2⟩ => ⟨.error e, c2, ev1 ++ ev2⟩
      | ⟨.ok stats, c2, ev2⟩ =>
        ⟨.ok (some (githubBlockOf data stats)), c2, ev1 ++ ev2⟩
  else ⟨.ok none, c, []⟩

/-- Lines 174-195: the npm-download sub-procedure.  On a cache miss the
registry is fetched; note that the source reads `downloads` from the
response *object* (`const data: any = res`), which under the fetcher's
`{ data, headers }` interface is `undefined`. -/
def npmPart (fetch : Fetch) (c : Cache) (item : JsVal) : Step (Option JsVal) :=
  if truthy (jsGet item "npmPackage") then
    let name := jsToString (jsGet item "npmPackage")
    let key := "npm-" ++ name
    let npm := cacheGet c key
    if truthy npm then ⟨.ok (some npm), c, [.cacheRead key]⟩
    else
      match fetch (npmApiUrl name) with
      | .error e =>
        ⟨.error ("Error getting NPM data for " ++ name ++ ": " ++ e.msg), c,
         [.cacheRead key, .fetch (npmApiUrl name)]⟩
      | .ok res =>
        let npm := JsVal.vobj [("url", .vstr ("https://www.npmjs.com/package/" ++ name)),
                               ("downloads", responseField res "downloads")]
        ⟨.ok (some npm), cacheSet c key npm,
         [.cacheRead key, .fetch (npmApiUrl name), .cacheWrite key]⟩
  else ⟨.ok none, c, []⟩

/-- Lines 197-225: the bundle-size sub-procedure, guarded by
`item.npmPackage && item.ignoreBundlephobia !== true`.  A rejected
fetch is rethrown naming the package (with the HTTP status when the
error carries a response); as in the npm branch, `size`/`gzip` are
read from the response object itself. -/
def bundlephobiaPart (fetch : Fetch) (c : Cache) (item : JsVal) : Step (Option JsVal) :=
  if truthy (jsGet item "npmPackage") && !(isTrueVal (jsGet item "ignoreBundlephobia")) then
    let name := jsToString (jsGet item "npmPackage")
    let key := "bundlephobia-" ++ name
    let bundlephobia := cacheGet c key
    if truthy bundlephobia then ⟨.ok (some bundlephobia), c, [.cacheRead key]⟩
    else
      match fetch (bundlephobiaApiUrl name) with
      | .error e =>
        ⟨.error (match e.responseStatus with
            | some st => "Bundlephobia API returned " ++ toString st ++ " for package " ++ name
            | none => "Bundlephobia failed for package " ++ name ++ ": " ++ e.msg), c,
         [.cacheRead key, .fetch (bundlephobiaApiUrl name)]⟩
      | .ok res =>
        let bundlephobia := JsVal.vobj
          [("url", .vstr ("https://bundlephobia.com/result?p=" ++ name)),
           ("rawSize", responseField res "size"),
           ("gzipSize", responseField res "gzip")]
        ⟨.ok (some bundlephobia), cacheSet c key bundlephobia,
         [.cacheRead key, .fetch (bundlephobiaApiUrl name), .cacheWrite key]⟩
  else ⟨.ok none, c, []⟩

/-- Merging a produced block into the record (`item.github = ...`
etc.); a skipped sub-procedure leaves the record unchanged. -/
def mergeBlock (item : JsVal) (k : String) : Option JsVal → JsVal
  | some block => objSet item k block
  | none => item

/-- Lines 114-225: enrich one validated record, merging each produced
block into it (`item.github = ...`, `item.npm = ...`,
`item.bundlephobia = ...`). -/
def enrichItem (fetch : Fetch) (c : Cache) (item : JsVal) (id : String) : Step JsVal :=
  match githubPart fetch c item id with
  | ⟨.error e, c1, ev1⟩ => ⟨.error e, c1, ev1⟩
  | ⟨.ok g, c1, ev1⟩ =>
    match npmPart fetch c1 (mergeBlock item "github" g) with
    | ⟨.error e, c2, ev2⟩ => ⟨.error e, c2, ev1 ++ ev2⟩
    | ⟨.ok n, c2, ev2⟩ =>
      match bundlephobiaPart fetch c2 (mergeBlock (mergeBlock item "github" g) "npm" n) with
      | ⟨.error e, c3, ev3⟩ => ⟨.error e, c3, ev1 ++ ev2 ++ ev3⟩
      | ⟨.ok b, c3, ev3⟩ =>
        ⟨.ok (mergeBlock (mergeBlock (mergeBlock item "github" g) "npm" n)
            "bundlephobia" b), c3, ev1 ++ ev2 ++ ev3⟩

/-- A discovered source file: its path, the id derived from the file
name (`basename(path, ".yml")`, supplied by the loader) and the parsed
YAML document. -/
structure SourceFile where
  path : String
  id : String
  doc : JsVal

/-- Lines 101-228: the per-file task.  The raw document must pass
`yamlSchema` (a failure is wrapped with the path), the record is built
as `{ id, ...obj }` and must pass `libraryInfoSchema` (uncaught on
failure), is enriched, and the merged result is validated again before
being collected. -/
def processFile (featureKeys : List String) (fetch : Fetch) (c : Cache)
    (f : SourceFile) : Step JsVal :=
  match validateYaml featureKeys f.doc with
  | .error e => ⟨.error (f.path ++ " is not valid: ValidationError: " ++ e), c, []⟩
  | .ok _ =>
    match validateLibraryInfo featureKeys
        (.vobj (spreadInto [("id", .vstr f.id)] (objFields f.doc))) with
    | .error e => ⟨.error ("ValidationError: " ++ e), c, []⟩
    | .ok item =>
      match enrichItem fetch c item f.id with
      | ⟨.error e, c1, ev⟩ => ⟨.error e, c1, ev⟩
      | ⟨.ok merged, c1, ev⟩ =>
        match validateLibraryInfo featureKeys merged with
        | .error e => ⟨.error ("ValidationError: " ++ e), c1, ev⟩
        | .ok pushed => ⟨.ok pushed, c1, ev⟩

/-- All per-file tasks.  `Promise.all` is modelled by sequential
processing in file order with fail-fast propagation of the first
rejection. -/
def runFiles (featureKeys : List String) (fetch : Fetch) :
    Cache → List SourceFile → Step (List JsVal)
  | c, [] => ⟨.ok [], c, []⟩
  | c, f :: rest =>
    match processFile featureKeys fetch c f with
    | ⟨.error e, c1, ev⟩ => ⟨.error e, c1, ev⟩
    | ⟨.ok item, c1, ev⟩ =>
      match runFiles featureKeys fetch c1 rest with
      | ⟨.error e, c2, ev2⟩ => ⟨.error e, c2, ev ++ ev2⟩
      | ⟨.ok items, c2, ev2⟩ => ⟨.ok (item :: items), c2, ev ++ ev2⟩

/-- Lines 92-239: the aggregate pipeline entry point, including the
final completeness check (lines 231-236). -/
def getLibraries (featureKeys : List String) (fetch : Fetch)
    (files : List SourceFile) (c : Cache) : Step (List JsVal) :=
  match runFiles featureKeys fetch c files with
  | ⟨.ok items, c1, ev⟩ =>
    if items.length = files.length then ⟨.ok items, c1, ev⟩
    else
      ⟨.error ("Incomplete data. Parsed " ++ toString files.length ++
          " YAML files but only got " ++ toString items.length ++ " info objects."), c1, ev⟩
  | ⟨.error e, c1, ev⟩ => ⟨.error e, c1, ev⟩

/-! ## Association-list lemmas -/

theorem lookupField_append_ne (fw : List (String × JsVal)) (k j : String) (v : JsVal)
    (h : k ≠ j) : lookupField k (fw ++ [(j, v)]) = lookupField k fw := by
  induction fw with
  | nil => simp [lookupField, h, beq_iff_eq, Ne.symm h]
  | cons hd tl ih =>
    obtain ⟨n, w⟩ := hd
    by_cases hn : n == k <;> simp [lookupField, hn, ih]

theorem jsGet_append_ne (fw : List (String × JsVal)) (k j : String) (v : JsVal)
    (h : k ≠ j) : jsGet (.vobj (fw ++ [(j, v)])) k = jsGet (.vobj fw) k := by
  simp [jsGet, lookupField_append_ne fw k j v h]

theorem lookupField_setField_ne (l : List (String × JsVal)) (k j : String) (w : JsVal)
    (h : k ≠ j) : lookupField k (setField j w l) = lookupField k l := by
  induction l with
  | nil => simp [setField, lookupField, beq_iff_eq, Ne.symm h]
  | cons hd tl ih =>
    obtain ⟨n, v⟩ := hd
    by_cases hj : n == j
    · have : ¬ (n == k) := by
        simp only [beq_iff_eq] at hj ⊢
        exact hj ▸ Ne.symm h
      simp [setField, hj, lookupField, this]
    · by_cases hk : n == k <;> simp [setField, hj, lookupField, hk, ih]

theorem lookupField_setField_self (l : List (String × JsVal)) (j : String) (w : JsVal) :
    lookupField j (setField j w l) = some w := by
  induction l with
  | nil => simp [setField, lookupField]
  | cons hd tl ih =>
    obtain ⟨n, v⟩ := hd
    by_cases hj : n == j <;> simp [setField, hj, lookupField, ih]

/-! ## Verdict congruence for object validation -/

theorem validateKnown_congr (shape : List (String × FieldV)) (p q : JsVal)
    (h : ∀ name fv, (name, fv) ∈ shape →
      exOk (fv p (jsGet p name)) = exOk (fv q (jsGet q name))) :
    exOk (validateKnown p shape) = exOk (validateKnown q shape) := by
  induction shape with
  | nil => rfl
  | cons hd tl ih =>
    obtain ⟨name, fv⟩ := hd
    have h0 := h name fv (by simp)
    have htl : ∀ n f, (n, f) ∈ tl →
        exOk (f p (jsGet p n)) = exOk (f q (jsGet q n)) :=
      fun n f hm => h n f (List.mem_cons_of_mem _ hm)
    have ihr := ih htl
    cases e1 : fv p (jsGet p name) <;> cases e2 : fv q (jsGet q name)
    · simp [validateKnown, e1, e2, exOk]
    · rw [e1, e2] at h0
      simp [exOk] at h0
    · rw [e1, e2] at h0
      simp [exOk] at h0
    · simp only [validateKnown, e1, e2]
      cases r1 : validateKnown p tl <;> cases r2 : validateKnown q tl <;>
        rw [r1, r2] at ihr <;> simp [exOk] at ihr ⊢

theorem exOk_validateObjectWith (shape : List (String × FieldV))
    (fs : List (String × JsVal)) :
    exOk (validateObjectWith shape (.vobj fs)) = exOk (validateKnown (.vobj fs) shape) := by
  cases r : validateKnown (.vobj fs) shape <;> simp [validateObjectWith, r, exOk]

theorem jsGet_setField_ne (l : List (String × JsVal)) (k j : String) (w : JsVal)
    (h : k ≠ j) : jsGet (.vobj (setField j w l)) k = jsGet (.vobj l) k := by
  simp [jsGet, lookupField_setField_ne l k j w h]

theorem booleanOrUrl_congr (p q v : JsVal)
    (h : jsGet p "booleanOrUrl" = jsGet q "booleanOrUrl") :
    booleanOrUrl p v = booleanOrUrl q v := by
  simp only [booleanOrUrl, h]
  rfl

theorem booleanOrString_congr (p q v : JsVal)
    (h : jsGet p "booleanOrString" = jsGet q "booleanOrString") :
    booleanOrString p v = booleanOrString q v := by
  simp only [booleanOrString, h]
  rfl

/-- Appending an entry with a key outside the six framework names (and
different from the `when` reference key `"booleanOrUrl"`) does not
change the verdict of the `frameworks` schema. -/
theorem frameworks_append_verdict (fw : List (String × JsVal)) (k : String) (v : JsVal)
    (hk : k ∉ (["vanilla", "react", "vue", "angular", "jquery", "ember"] : List String))
    (hb : k ≠ "booleanOrUrl") :
    exOk (validateObjectWith frameworksSchema (.vobj (fw ++ [(k, v)]))) =
      exOk (validateObjectWith frameworksSchema (.vobj fw)) := by
  have hks := hk
  simp only [List.mem_cons, List.not_mem_nil, or_false, not_or] at hks
  obtain ⟨h1, h2, h3, h4, h5, h6⟩ := hks
  rw [exOk_validateObjectWith, exOk_validateObjectWith]
  apply validateKnown_congr
  intro name fv hmem
  have hpar := jsGet_append_ne fw "booleanOrUrl" k v (Ne.symm hb)
  simp only [frameworksSchema, List.mem_cons, List.not_mem_nil, or_false] at hmem
  rcases hmem with h | h | h | h | h | h <;>
    (rw [Prod.mk.injEq] at h; obtain ⟨rfl, rfl⟩ := h)
  · rw [jsGet_append_ne fw _ k v (Ne.symm h1)]
    exact congrArg exOk (booleanOrUrl_congr _ _ _ hpar)
  · rw [jsGet_append_ne fw _ k v (Ne.symm h2)]
    exact congrArg exOk (booleanOrUrl_congr _ _ _ hpar)
  · rw [jsGet_append_ne fw _ k v (Ne.symm h3)]
    exact congrArg exOk (booleanOrUrl_congr _ _ _ hpar)
  · rw [jsGet_append_ne fw _ k v (Ne.symm h4)]
    exact congrArg exOk (booleanOrUrl_congr _ _ _ hpar)
  · rw [jsGet_append_ne fw _ k v (Ne.symm h5)]
    exact congrArg exOk (booleanOrUrl_congr _ _ _ hpar)
  · rw [jsGet_append_ne fw _ k v (Ne.symm h6)]
    exact congrArg exOk (booleanOrUrl_congr _ _ _ hpar)

/-- The analogous fact for the `features` schema, for any key list. -/
theorem features_append_verdict (featureKeys : List String) (fts : List (String × JsVal))
    (k : String) (v : JsVal) (hk : k ∉ featureKeys) (hb : k ≠ "booleanOrString") :
    exOk (validateObjectWith (featuresSchema featureKeys) (.vobj (fts ++ [(k, v)]))) =
      exOk (validateObjectWith (featuresSchema featureKeys) (.vobj fts)) := by
  rw [exOk_validateObjectWith, exOk_validateObjectWith]
  apply validateKnown_congr
  intro name fv hmem
  simp only [featuresSchema, List.mem_map] at hmem
  obtain ⟨key, hkey, heq⟩ := hmem
  rw [Prod.mk.injEq] at heq
  obtain ⟨rfl, rfl⟩ := heq
  have hne : key ≠ k := fun h => hk (h ▸ hkey)
  rw [jsGet_append_ne fts key k v hne]
  exact congrArg exOk
    (booleanOrString_congr _ _ _ (jsGet_append_ne fts "booleanOrString" k v (Ne.symm hb)))

/-! ## Claims C1 and C2: key enumeration and per-entry conditional typing -/

/-- A parsed document whose `frameworks` and `features` mappings both
contain a key outside the fixed enumerations. -/
def unknownKeysDoc : JsVal :=
  .vobj [("title", .vstr "Example"), ("description", .vstr "A grid library"),
         ("frameworks", .vobj [("svelte", .vbool true)]),
         ("features", .vobj [("darkMode", .vbool true)])]

/-- Claim C1 (counterexample): a source document whose `frameworks` and
`features` mappings contain keys outside the closed enumerations
(`svelte`, `darkMode`) nevertheless validates successfully — the yup
object schemas built by the source never reject unknown keys (no
`noUnknown()` is applied, and the `allowedFeatures` set of line 89 is
never used), refuting "validation of that document fails". -/
theorem c1_unknown_key_doc_validates :
    exOk (validateYaml Features unknownKeysDoc) = true := by
  rfl

/-- Claim C1 (amended): unknown keys in `frameworks`/`features` are
ignored rather than rejected: appending an entry whose key lies outside
the respective enumeration (and is not one of the schema-internal
`when` reference names `booleanOrUrl`/`booleanOrString`, which the
validator does read from the parent object) never changes the
validation verdict of the document; in particular documents using only
enumerated keys are not rejected on key grounds. -/
theorem c1_unknown_keys_not_rejected (featureKeys : List String)
    (dfields fw fts : List (String × JsVal)) (k : String) (v : JsVal) :
    (lookupField "frameworks" dfields = some (.vobj fw) →
      k ∉ (["vanilla", "react", "vue", "angular", "jquery", "ember"] : List String) →
      k ≠ "booleanOrUrl" →
      exOk (validateYaml featureKeys
          (.vobj (setField "frameworks" (.vobj (fw ++ [(k, v)])) dfields))) =
        exOk (validateYaml featureKeys (.vobj dfields))) ∧
    (lookupField "features" dfields = some (.vobj fts) →
      k ∉ featureKeys → k ≠ "booleanOrString" →
      exOk (validateYaml featureKeys
          (.vobj (setField "features" (.vobj (fts ++ [(k, v)])) dfields))) =
        exOk (validateYaml featureKeys (.vobj dfields))) := by
  constructor
  · intro hfw hk hb
    unfold validateYaml
    rw [exOk_validateObjectWith, exOk_validateObjectWith]
    apply validateKnown_congr
    intro name fv hmem
    simp only [yamlSchema, List.mem_cons, List.not_mem_nil, or_false] at hmem
    rcases hmem with h | h | h | h | h | h | h | h | h | h | h <;>
      (rw [Prod.mk.injEq] at h; obtain ⟨rfl, rfl⟩ := h)
    · rw [jsGet_setField_ne dfields "title" "frameworks" _ (by decide)]
      rfl
    · rw [jsGet_setField_ne dfields "description" "frameworks" _ (by decide)]
      rfl
    · rw [jsGet_setField_ne dfields "homeUrl" "frameworks" _ (by decide)]
      rfl
    · rw [jsGet_setField_ne dfields "demoUrl" "frameworks" _ (by decide)]
      rfl
    · rw [jsGet_setField_ne dfields "githubRepo" "frameworks" _ (by decide)]
      rfl
    · rw [jsGet_setField_ne dfields "npmPackage" "frameworks" _ (by decide)]
      rfl
    · rw [jsGet_setField_ne dfields "ignoreBundlephobia" "frameworks" _ (by decide)]
      rfl
    · rw [jsGet_setField_ne dfields "license" "frameworks" _ (by decide)]
      rfl
    · rw [jsGet_setField_ne dfields "revenueModel" "frameworks" _ (by decide)]
      rfl
    · have hP : jsGet (JsVal.vobj (setField "frameworks" (JsVal.vobj (fw ++ [(k, v)])) dfields))
          "frameworks" = JsVal.vobj (fw ++ [(k, v)]) := by
        simp [jsGet, lookupField_setField_self]
      have hQ : jsGet (JsVal.vobj dfields) "frameworks" = JsVal.vobj fw := by
        simp [jsGet, hfw]
      rw [hP, hQ]
      simp only [objField]
      exact frameworks_append_verdict fw k v hk hb
    · rw [jsGet_setField_ne dfields "features" "frameworks" _ (by decide)]
      rfl
  · intro hft hk hb
    unfold validateYaml
    rw [exOk_validateObjectWith, exOk_validateObjectWith]
    apply validateKnown_congr
    intro name fv hmem
    simp only [yamlSchema, List.mem_cons, List.not_mem_nil, or_false] at hmem
    rcases hmem with h | h | h | h | h | h | h | h | h | h | h <;>
      (rw [Prod.mk.injEq] at h; obtain ⟨rfl, rfl⟩ := h)
    · rw [jsGet_setField_ne dfields "title" "features" _ (by decide)]
      rfl
    · rw [jsGet_setField_ne dfields "description" "features" _ (by decide)]
      rfl
    · rw [jsGet_setField_ne dfields "homeUrl" "features" _ (by decide)]
      rfl
    · rw [jsGet_setField_ne dfields "demoUrl" "features" _ (by decide)]
      rfl
    · rw [jsGet_setField_ne dfields "githubRepo" "features" _ (by decide)]
      rfl
    · rw [jsGet_setField_ne dfields "npmPackage" "features" _ (by decide)]
      rfl
    · rw [jsGet_setField_ne dfields "ignoreBundlephobia" "features" _ (by decide)]
      rfl
    · rw [jsGet_setField_ne dfields "license" "features" _ (by decide)]
      rfl
    · rw [jsGet_setField_ne dfields "revenueModel" "features" _ (by decide)]
      rfl
    · rw [jsGet_setField_ne dfields "frameworks" "features" _ (by decide)]
      rfl
    · have hP : jsGet (JsVal.vobj (setField "features" (JsVal.vobj (fts ++ [(k, v)])) dfields))
          "features" = JsVal.vobj (fts ++ [(k, v)]) := by
        simp [jsGet, lookupField_setField_self]
      have hQ : jsGet (JsVal.vobj dfields) "features" = JsVal.vobj fts := by
        simp [jsGet, hft]
      rw [hP, hQ]
      simp only [objField]
      exact features_append_verdict featureKeys fts k v hk hb

/-- A valid document using only enumerated keys, for the C1 witness. -/
def enumeratedOnlyFields : List (String × JsVal) :=
  [("title", .vstr "T"), ("description", .vstr "D"),
   ("frameworks", .vobj [("react", .vbool true)]),
   ("features", .vobj [("filtering", .vbool true)])]

/-- Witness for the amended C1 at a concrete document: adding the
unknown framework key `svelte` or the unknown feature key `darkMode`
leaves the verdict unchanged. -/
theorem c1_unknown_keys_witness :
    (exOk (validateYaml Features
        (.vobj (setField "frameworks"
          (.vobj ([("react", JsVal.vbool true)] ++ [("svelte", JsVal.vnum 7)]))
          enumeratedOnlyFields))) =
      exOk (validateYaml Features (.vobj enumeratedOnlyFields))) ∧
    (exOk (validateYaml Features
        (.vobj (setField "features"
          (.vobj ([("filtering", JsVal.vbool true)] ++ [("darkMode", JsVal.vnum 7)]))
          enumeratedOnlyFields))) =
      exOk (validateYaml Features (.vobj enumeratedOnlyFields))) :=
  ⟨(c1_unknown_keys_not_rejected Features enumeratedOnlyFields
      [("react", JsVal.vbool true)] [("filtering", JsVal.vbool true)] "svelte"
      (JsVal.vnum 7)).1 (by rfl) (by decide) (by decide),
   (c1_unknown_keys_not_rejected Features enumeratedOnlyFields
      [("react", JsVal.vbool true)] [("filtering", JsVal.vbool true)] "darkMode"
      (JsVal.vnum 7)).2 (by rfl) (by decide) (by decide)⟩

/-- `frameworks.react` set to a valid URL string. -/
def reactUrlDoc : JsVal :=
  .vobj [("title", .vstr "Example"), ("description", .vstr "A grid library"),
         ("frameworks", .vobj [("react", .vstr "https://example.com/docs")])]

/-- `frameworks.react` set to a boolean. -/
def reactBoolDoc : JsVal :=
  .vobj [("title", .vstr "Example"), ("description", .vstr "A grid library"),
         ("frameworks", .vobj [("react", .vbool true)])]

/-- `frameworks.react` absent. -/
def reactAbsentDoc : JsVal :=
  .vobj [("title", .vstr "Example"), ("description", .vstr "A grid library"),
         ("frameworks", .vobj [])]

/-- `frameworks.react` set to the number 42. -/
def react42Doc : JsVal :=
  .vobj [("title", .vstr "Example"), ("description", .vstr "A grid library"),
         ("frameworks", .vobj [("react", .vnum 42)])]

/-- Claim C2 (evaluation of the code at the claim's inputs): the
`when("booleanOrUrl", ...)` condition resolves the key against the
sibling fields of the entry, where no `booleanOrUrl` field exists, so
the `otherwise` boolean schema applies to *every* framework entry
regardless of its own runtime type.  Consequently a framework entry
holding the valid URL string `"https://example.com/docs"` FAILS
validation (it is not a castable boolean), while the claim (and the
spec, stating the intended self-conditional rule) says it validates;
booleans and absence validate and the number 42 fails, as claimed. -/
theorem c2_url_string_rejected :
    exOk (validateYaml Features reactUrlDoc) = false ∧
    exOk (validateYaml Features reactBoolDoc) = true ∧
    exOk (validateYaml Features reactAbsentDoc) = true ∧
    exOk (validateYaml Features react42Doc) = false :=
  ⟨rfl, rfl, rfl, rfl⟩

/-! ## Claim C3: the contributor count -/

/-- Claim C3: on a contributors cache miss, if the first response has
fewer than 100 entries or no `link` header, the computed count is
exactly the number of entries; otherwise, with the last-page number `n`
extracted from the `rel="last"` part of the `link` header, the last
page is fetched and the count is `100 * (n - 1)` plus the number of
entries on that page. -/
theorem c3_contributor_count (fetch : Fetch) (c : Cache) (repo id : String)
    (hmiss : truthy (cacheGet c ("gh-" ++ repo ++ "-contributors")) = false) :
    (∀ res l, fetch (contributorsUrl repo) = .ok res →
      res.data = .varr l →
      ((l.length : Int) < 100 ∨ res.link = none ∨ res.link = some "") →
      (githubStats fetch c repo id).result =
        .ok (.vobj [("contributors", .vnum l.length)])) ∧
    (∀ res l s seg n res2 l2, fetch (contributorsUrl repo) = .ok res →
      res.data = .varr l →
      ¬ ((l.length : Int) < 100) →
      res.link = some s → s ≠ "" →
      (splitComma s.data).find? (fun t => containsSub ("rel=" ++ "\"last\"").data t) =
        some seg →
      findPage none seg = some n →
      fetch (contributorsUrl repo ++ "&page=" ++ toString (n : Int)) = .ok res2 →
      res2.data = .varr l2 →
      (githubStats fetch c repo id).result =
        .ok (.vobj [("contributors", .vnum (100 * ((n : Int) - 1) + l2.length))])) := by
  constructor
  · intro res l hfetch hdata hcond
    simp only [githubStats, hmiss, Bool.false_eq_true, if_false, hfetch, hdata]
    rcases hcond with hlt | hnone | hempty
    · simp [jsLtNum, jsLen, hlt]
    · rw [hnone]
      simp [jsLen]
    · rw [hempty]
      simp [jsLen]
  · intro res l s seg n res2 l2 hfetch hdata hge hlink hs hfind hpage hfetch2 hdata2
    have hlt : jsLtNum (jsLen (JsVal.varr l)) 100 = false := by
      simp [jsLtNum, jsLen, hge]
    simp only [githubStats, hmiss, Bool.false_eq_true, if_false, hfetch, hdata, hlink, hlt,
      hfind, hpage, Option.getD_some, hs, if_false, hfetch2, hdata2, jsLen, jsAddIntLen]
    have hl : jsLtNum (JsVal.vnum (l.length : Int)) 100 = false := by
      simp [jsLtNum, hge]
    simp [hl, hs]

/-- A first-page response with 37 entries and no `Link` header. -/
def short37Res : Response := ⟨.varr (List.replicate 37 .vnull), none⟩

/-- A fetcher returning 37 contributors with no pagination. -/
def fetch37 : Fetch := fun _ => .ok short37Res

/-- A `Link` header whose `rel="last"` part points at page 3. -/
def linkHeader3 : String :=
  "<https://api.github.com/repositories/1/contributors?per_page=100&page=3>; rel=" ++
    "\"last\"" ++ ", <https://api.github.com/repositories/1/contributors?per_page=100&page=2>; rel=" ++
    "\"next\""

/-- A full first page of 100 entries carrying `linkHeader3`. -/
def page1Res : Response := ⟨.varr (List.replicate 100 .vnull), some linkHeader3⟩

/-- Page 3 with 42 entries. -/
def page3Res : Response := ⟨.varr (List.replicate 42 .vnull), none⟩

/-- A fetcher serving the paginated contributor listing. -/
def fetch242 : Fetch := fun url =>
  if url = contributorsUrl "u/r" then .ok page1Res else .ok page3Res

/-- Witness for C3: 37 entries without pagination give count 37, and a
full page with `rel="last"` at page 3 returning 42 entries gives
`100 * (3 - 1) + 42 = 242`. -/
theorem c3_contributor_count_witness :
    (githubStats fetch37 [] "u/r" "lib").result =
      .ok (.vobj [("contributors", .vnum 37)]) ∧
    (githubStats fetch242 [] "u/r" "lib").result =
      .ok (.vobj [("contributors", .vnum 242)]) :=
  ⟨(c3_contributor_count fetch37 [] "u/r" "lib" rfl).1 short37Res
      (List.replicate 37 .vnull) rfl rfl (Or.inl (by decide)),
   (c3_contributor_count fetch242 [] "u/r" "lib" rfl).2 page1Res
      (List.replicate 100 .vnull) linkHeader3 (splitComma linkHeader3.data).head!
      3 page3Res (List.replicate 42 .vnull) (by rfl) rfl (by decide) rfl (by decide)
      (by rfl) (by rfl) (by rfl) rfl⟩

/-! ## Claim C4: identity mismatch on repo metadata -/

/-- Claim C4: for a record with `githubRepo` set whose repo-info cache
entry is absent, a fetched payload whose `full_name` differs from the
declared repo makes enrichment fail with the identity-mismatch error,
and no cache write is performed for `gh-{repo}-info` (the run's cache
is left untouched). -/
theorem c4_identity_mismatch (fetch : Fetch) (c : Cache) (item : JsVal) (id r : String)
    (hrepo : jsGet item "githubRepo" = .vstr r) (hr : r ≠ "")
    (hmiss : truthy (cacheGet c ("gh-" ++ r ++ "-info")) = false)
    (res : Response) (hfetch : fetch (repoApiUrl r) = .ok res)
    (hname : jsStrEq (jsGet res.data "full_name") r = false) :
    (enrichItem fetch c item id).result =
      .error ("Error getting GitHub data for " ++ id ++ ": Error: GitHub repo " ++ r ++
        " has moved to " ++ jsToString (jsGet res.data "full_name")) ∧
    Event.cacheWrite ("gh-" ++ r ++ "-info") ∉ (enrichItem fetch c item id).events ∧
    (enrichItem fetch c item id).cache = c := by
  have htr : truthy (jsGet item "githubRepo") = true := by
    simp [hrepo, truthy, hr]
  have hstr : jsToString (jsGet item "githubRepo") = r := by
    rw [hrepo]
    rfl
  have hinfo : githubInfo fetch c r id =
      ⟨.error ("Error getting GitHub data for " ++ id ++ ": Error: GitHub repo " ++ r ++
          " has moved to " ++ jsToString (jsGet res.data "full_name")), c,
        [.cacheRead ("gh-" ++ r ++ "-info"), .fetch (repoApiUrl r)]⟩ := by
    simp [githubInfo, hmiss, hfetch, hname]
  have hpart : githubPart fetch c item id =
      ⟨.error ("Error getting GitHub data for " ++ id ++ ": Error: GitHub repo " ++ r ++
          " has moved to " ++ jsToString (jsGet res.data "full_name")), c,
        [.cacheRead ("gh-" ++ r ++ "-info"), .fetch (repoApiUrl r)]⟩ := by
    simp [githubPart, htr, hstr, hinfo]
  refine ⟨?_, ?_, ?_⟩ <;> simp [enrichItem, mergeBlock, hpart]

/-- A repo-metadata payload whose canonical name differs from the
declared repo. -/
def movedRes : Response :=
  ⟨.vobj [("full_name", .vstr "acme/bar"),
          ("html_url", .vstr "https://github.com/acme/bar")], none⟩

/-- A fetcher reporting the moved repo. -/
def fetchMoved : Fetch := fun _ => .ok movedRes

/-- A validated record declaring `githubRepo: foo/bar`. -/
def itemC4 : JsVal := .vobj [("githubRepo", .vstr "foo/bar")]

/-- Witness for C4 at a concrete record, cache and fetcher. -/
theorem c4_identity_mismatch_witness :
    (enrichItem fetchMoved [] itemC4 "foo").result =
      .error "Error getting GitHub data for foo: Error: GitHub repo foo/bar has moved to acme/bar" ∧
    Event.cacheWrite "gh-foo/bar-info" ∉ (enrichItem fetchMoved [] itemC4 "foo").events ∧
    (enrichItem fetchMoved [] itemC4 "foo").cache = [] :=
  c4_identity_mismatch fetchMoved [] itemC4 "foo" "foo/bar" rfl (by decide) rfl movedRes
    rfl rfl

/-! ## Claims C5, C6, C7: cache hits, the Bundlephobia guard, and
Bundlephobia failures -/

theorem jsGet_objSet_ne (item : JsVal) (k j : String) (w : JsVal) (h : j ≠ k) :
    jsGet (objSet item k w) j = jsGet item j := by
  cases item <;> simp [objSet, jsGet]
  exact congrArg (fun o => Option.getD o JsVal.vundefined)
    (lookupField_setField_ne _ j k w h)

/-- The value carried by a successful result (`undefined` on errors;
used only to project concrete successful runs). -/
def okValue : Except String JsVal → JsVal
  | .ok v => v
  | .error _ => .vundefined

/-- The first property name of an object value. -/
def firstKey : JsVal → Option String
  | .vobj ((k, _) :: _) => some k
  | _ => none

/-- Whether an object value carries the given property name. -/
def hasField (v : JsVal) (k : String) : Bool :=
  match v with
  | .vobj fs => (lookupField k fs).isSome
  | _ => false

/-- Claim C5 (amended): with a truthy cache entry for every key the
record's fields request, enrichment performs no fetch (and no cache
write): the events are exactly the four cache reads, the cache is
returned unchanged, and the merged record carries the cached npm and
bundlephobia payloads verbatim while its github block is the fixed
projection `githubBlockOf` of the two cached GitHub entries. -/
theorem c5_warm_cache_blocks (fetch : Fetch) (c : Cache) (item : JsVal) (id r p : String)
    (info stats npmV bpV : JsVal)
    (hrepo : jsGet item "githubRepo" = .vstr r) (hr : r ≠ "")
    (hnpm : jsGet item "npmPackage" = .vstr p) (hp : p ≠ "")
    (hign : isTrueVal (jsGet item "ignoreBundlephobia") = false)
    (hinfo : cacheGet c ("gh-" ++ r ++ "-info") = info) (htinfo : truthy info = true)
    (hstats : cacheGet c ("gh-" ++ r ++ "-contributors") = stats)
    (htstats : truthy stats = true)
    (hnpmc : cacheGet c ("npm-" ++ p) = npmV) (htnpm : truthy npmV = true)
    (hbpc : cacheGet c ("bundlephobia-" ++ p) = bpV) (htbp : truthy bpV = true) :
    enrichItem fetch c item id =
      ⟨.ok (objSet (objSet (objSet item "github" (githubBlockOf info stats))
          "npm" npmV) "bundlephobia" bpV), c,
        [.cacheRead ("gh-" ++ r ++ "-info"), .cacheRead ("gh-" ++ r ++ "-contributors"),
         .cacheRead ("npm-" ++ p), .cacheRead ("bundlephobia-" ++ p)]⟩ := by
  have htr : truthy (jsGet item "githubRepo") = true := by
    simp [hrepo, truthy, hr]
  have hstr : jsToString (jsGet item "githubRepo") = r := by
    rw [hrepo]
    rfl
  have hinfoStep : githubInfo fetch c r id =
      ⟨.ok info, c, [.cacheRead ("gh-" ++ r ++ "-info")]⟩ := by
    simp [githubInfo, hinfo, htinfo]
  have hstatsStep : githubStats fetch c r id =
      ⟨.ok stats, c, [.cacheRead ("gh-" ++ r ++ "-contributors")]⟩ := by
    simp [githubStats, hstats, htstats]
  have hgh : githubPart fetch c item id =
      ⟨.ok (some (githubBlockOf info stats)), c,
        [.cacheRead ("gh-" ++ r ++ "-info"), .cacheRead ("gh-" ++ r ++ "-contributors")]⟩ := by
    simp [githubPart, htr, hstr, hinfoStep, hstatsStep]
  have hnpm1 : jsGet (objSet item "github" (githubBlockOf info stats)) "npmPackage" =
      .vstr p := by
    rw [jsGet_objSet_ne item "github" "npmPackage" _ (by decide), hnpm]
  have htp : truthy (JsVal.vstr p) = true := by
    simp [truthy, hp]
  have hnpmStep : npmPart fetch c (objSet item "github" (githubBlockOf info stats)) =
      ⟨.ok (some npmV), c, [.cacheRead ("npm-" ++ p)]⟩ := by
    simp [npmPart, hnpm1, htp, jsToString, hnpmc, htnpm]
  have hnpm2 : jsGet (objSet (objSet item "github" (githubBlockOf info stats)) "npm" npmV)
      "npmPackage" = .vstr p := by
    rw [jsGet_objSet_ne _ "npm" "npmPackage" _ (by decide), hnpm1]
  have hign2 : isTrueVal (jsGet (objSet (objSet item "github" (githubBlockOf info stats))
      "npm" npmV) "ignoreBundlephobia") = false := by
    rw [jsGet_objSet_ne _ "npm" "ignoreBundlephobia" _ (by decide),
      jsGet_objSet_ne item "github" "ignoreBundlephobia" _ (by decide)]
    exact hign
  have hbpStep : bundlephobiaPart fetch c
      (objSet (objSet item "github" (githubBlockOf info stats)) "npm" npmV) =
      ⟨.ok (some bpV), c, [.cacheRead ("bundlephobia-" ++ p)]⟩ := by
    simp [bundlephobiaPart, hnpm2, htp, hign2, jsToString, hbpc, htbp]
  simp [enrichItem, mergeBlock, hgh, hnpmStep, hbpStep]

/-- A fetcher that rejects every request (no network). -/
def fetchNone : Fetch := fun _ => .error ⟨"Error: network disabled", none⟩

/-- A cached repo-metadata payload (the raw GitHub response shape). -/
def ghInfoVal : JsVal :=
  .vobj [("full_name", .vstr "u/r"), ("html_url", .vstr "https://github.com/u/r"),
         ("stargazers_count", .vnum 5), ("forks_count", .vnum 2),
         ("open_issues_count", .vnum 1), ("watchers_count", .vnum 5),
         ("subscribers_count", .vnum 3), ("network_count", .vnum 2)]

/-- A cached contributor-count payload. -/
def ghStatsVal : JsVal := .vobj [("contributors", .vnum 7)]

/-- A cached npm payload (the transformed block shape). -/
def npmVal : JsVal :=
  .vobj [("url", .vstr "https://www.npmjs.com/package/foo"), ("downloads", .vnum 5)]

/-- A cached bundlephobia payload (the transformed block shape). -/
def bpVal : JsVal :=
  .vobj [("url", .vstr "https://bundlephobia.com/result?p=foo"),
         ("rawSize", .vnum 1000), ("gzipSize", .vnum 300)]

/-- A cache holding every key the record below requests. -/
def warmCache : Cache :=
  [("gh-u/r-info", ghInfoVal), ("gh-u/r-contributors", ghStatsVal),
   ("npm-foo", npmVal), ("bundlephobia-foo", bpVal)]

/-- A validated record requesting all four enrichment keys. -/
def warmItem : JsVal :=
  .vobj [("title", .vstr "T"), ("description", .vstr "D"),
         ("githubRepo", .vstr "u/r"), ("npmPackage", .vstr "foo")]

/-- Witness for the amended C5 at a concrete warm cache. -/
theorem c5_warm_cache_blocks_witness :
    enrichItem fetchNone warmCache warmItem "lib" =
      ⟨.ok (objSet (objSet (objSet warmItem "github" (githubBlockOf ghInfoVal ghStatsVal))
          "npm" npmVal) "bundlephobia" bpVal), warmCache,
        [.cacheRead "gh-u/r-info", .cacheRead "gh-u/r-contributors",
         .cacheRead "npm-foo", .cacheRead "bundlephobia-foo"]⟩ :=
  c5_warm_cache_blocks fetchNone warmCache warmItem "lib" "u/r" "foo"
    ghInfoVal ghStatsVal npmVal bpVal rfl (by decide) rfl (by decide) rfl rfl rfl rfl rfl
    rfl rfl rfl rfl

/-- The source document for the C5 counterexample. -/
def warmDoc : JsVal :=
  .vobj [("title", .vstr "T"), ("description", .vstr "D"),
         ("githubRepo", .vstr "u/r"), ("npmPackage", .vstr "foo")]

/-- The source file for the C5 counterexample. -/
def warmFile : SourceFile := ⟨"data/lib.yml", "lib", warmDoc⟩

/-- Claim C5 (counterexample): with every needed key cached, the run
indeed performs no fetch (the trace is exactly the four cache reads)
and the npm block equals the cached value exactly — but the github
block of the resulting Library Record does NOT equal the cached
`gh-u/r-info` value: the code rebuilds it from the raw payload under
different field names (url ← html_url, stars ← stargazers_count, …),
refuting "the enrichment blocks equal the cached values exactly". -/
theorem c5_github_block_differs_from_cache :
    (processFile Features fetchNone warmCache warmFile).events =
      [.cacheRead "gh-u/r-info", .cacheRead "gh-u/r-contributors",
       .cacheRead "npm-foo", .cacheRead "bundlephobia-foo"] ∧
    jsGet (okValue (processFile Features fetchNone warmCache warmFile).result) "npm" =
      cacheGet warmCache "npm-foo" ∧
    jsGet (okValue (processFile Features fetchNone warmCache warmFile).result) "github" ≠
      cacheGet warmCache "gh-u/r-info" := by
  refine ⟨rfl, rfl, fun h => ?_⟩
  have h1 : firstKey (jsGet (okValue
      (processFile Features fetchNone warmCache warmFile).result) "github") =
      some "url" := rfl
  rw [h] at h1
  have h2 : firstKey (cacheGet warmCache "gh-u/r-info") = some "full_name" := rfl
  rw [h2] at h1
  exact absurd (Option.some.inj h1) (by decide)

/-- Claim C6 (amended): the bundle-size sub-procedure runs exactly when
`npmPackage` is truthy and `ignoreBundlephobia` is not strictly `true`:
when the guard is false it performs no action at all (no fetch, no
bundlephobia cache access, empty trace); when the guard is true its
very first action is the `bundlephobia-{package}` cache read; and a
skipped record's `bundlephobia` field is left exactly as validation
produced it (the schema's default empty block, not an absent field). -/
theorem c6_bundlephobia_guard :
    (∀ (fetch : Fetch) (c : Cache) (item : JsVal),
      (truthy (jsGet item "npmPackage") &&
        !(isTrueVal (jsGet item "ignoreBundlephobia"))) = false →
      bundlephobiaPart fetch c item = ⟨.ok none, c, []⟩) ∧
    (∀ (fetch : Fetch) (c : Cache) (item : JsVal),
      (truthy (jsGet item "npmPackage") &&
        !(isTrueVal (jsGet item "ignoreBundlephobia"))) = true →
      (bundlephobiaPart fetch c item).events.head? =
        some (.cacheRead ("bundlephobia-" ++ jsToString (jsGet item "npmPackage")))) ∧
    (∀ (fetch : Fetch) (c : Cache) (item : JsVal) (id p : String) (npmV : JsVal),
      jsGet item "githubRepo" = .vundefined →
      jsGet item "npmPackage" = .vstr p → p ≠ "" →
      jsGet item "ignoreBundlephobia" = .vbool true →
      cacheGet c ("npm-" ++ p) = npmV → truthy npmV = true →
      enrichItem fetch c item id =
        ⟨.ok (objSet item "npm" npmV), c, [.cacheRead ("npm-" ++ p)]⟩) := by
  refine ⟨?_, ?_, ?_⟩
  · intro fetch c item h
    simp [bundlephobiaPart, h]
  · intro fetch c item h
    simp only [bundlephobiaPart, h, if_true]
    by_cases ht : truthy (cacheGet c
        ("bundlephobia-" ++ jsToString (jsGet item "npmPackage"))) = true
    · simp [ht]
    · rw [Bool.not_eq_true] at ht
      cases hf : fetch (bundlephobiaApiUrl (jsToString (jsGet item "npmPackage"))) <;>
        simp [ht, hf]
  · intro fetch c item id p npmV hgh hnpm hp hign hc htn
    have hghskip : githubPart fetch c item id = ⟨.ok none, c, []⟩ := by
      simp [githubPart, hgh, truthy]
    have htp : truthy (JsVal.vstr p) = true := by
      simp [truthy, hp]
    have hnpmStep : npmPart fetch c item = ⟨.ok (some npmV), c, [.cacheRead ("npm-" ++ p)]⟩ := by
      simp [npmPart, hnpm, htp, jsToString, hc, htn]
    have hign2 : isTrueVal (jsGet (objSet item "npm" npmV) "ignoreBundlephobia") = true := by
      rw [jsGet_objSet_ne item "npm" "ignoreBundlephobia" _ (by decide), hign]
      rfl
    have hbpskip : bundlephobiaPart fetch c (objSet item "npm" npmV) = ⟨.ok none, c, []⟩ := by
      simp [bundlephobiaPart, hign2]
    simp [enrichItem, mergeBlock, hghskip, hnpmStep, hbpskip]

/-- A record with `npmPackage` set and `ignoreBundlephobia: true`. -/
def bpSkipItem : JsVal :=
  .vobj [("npmPackage", .vstr "foo"), ("ignoreBundlephobia", .vbool true)]

/-- A record with `npmPackage` set and `ignoreBundlephobia` absent. -/
def bpRunItem : JsVal := .vobj [("npmPackage", .vstr "foo")]

/-- A cache holding only the npm key. -/
def npmOnlyCache : Cache := [("npm-foo", npmVal)]

/-- A cache holding only the bundlephobia key. -/
def bpOnlyCache : Cache := [("bundlephobia-foo", bpVal)]

/-- Witness for the amended C6: the guard skips (empty trace), the
guard runs (first action is the bundlephobia cache read), and the
skipped record keeps its `npm` merge with a single npm cache read. -/
theorem c6_bundlephobia_guard_witness :
    bundlephobiaPart fetchNone npmOnlyCache bpSkipItem = ⟨.ok none, npmOnlyCache, []⟩ ∧
    (bundlephobiaPart fetchNone bpOnlyCache bpRunItem).events.head? =
      some (.cacheRead "bundlephobia-foo") ∧
    enrichItem fetchNone npmOnlyCache bpSkipItem "lib" =
      ⟨.ok (objSet bpSkipItem "npm" npmVal), npmOnlyCache, [.cacheRead "npm-foo"]⟩ :=
  ⟨c6_bundlephobia_guard.1 fetchNone npmOnlyCache bpSkipItem rfl,
   c6_bundlephobia_guard.2.1 fetchNone bpOnlyCache bpRunItem rfl,
   c6_bundlephobia_guard.2.2 fetchNone npmOnlyCache bpSkipItem "lib" "foo" npmVal
     rfl rfl (by decide) rfl rfl rfl⟩

/-- The source document for the C6 counterexample. -/
def bpSkipDoc : JsVal :=
  .vobj [("title", .vstr "T"), ("description", .vstr "D"),
         ("npmPackage", .vstr "foo"), ("ignoreBundlephobia", .vbool true)]

/-- The source file for the C6 counterexample. -/
def bpSkipFile : SourceFile := ⟨"data/lib.yml", "lib", bpSkipDoc⟩

/-- Claim C6 (counterexample): with `npmPackage` set and
`ignoreBundlephobia: true`, the run indeed performs no bundle-size
fetch and no bundlephobia cache access (the trace is exactly the npm
cache read) — but the resulting Library Record still HAS a
`bundlephobia` property: yup object schemas are defaulted, so the
final `libraryInfoSchema.validateSync` materialises an empty
`bundlephobia` block even when enrichment never produced one, refuting
"the resulting Library Record has no bundlephobia block". -/
theorem c6_default_block_present :
    (processFile Features fetchNone npmOnlyCache bpSkipFile).events =
      [.cacheRead "npm-foo"] ∧
    hasField (okValue (processFile Features fetchNone npmOnlyCache bpSkipFile).result)
      "bundlephobia" = true :=
  ⟨rfl, rfl⟩

/-- Claim C7: on a bundlephobia cache miss, a rejected fetch from the
bundle-analysis service makes the sub-procedure — and with it the whole
record's enrichment — fail with an error naming the package (with the
HTTP status when the rejection carries a response); the failure is
never skipped and no record is produced without the block in that
case. -/
theorem c7_bundlephobia_error_fails_record :
    (∀ (fetch : Fetch) (c : Cache) (item : JsVal) (p : String) (e : FetchErr),
      jsGet item "npmPackage" = .vstr p → p ≠ "" →
      isTrueVal (jsGet item "ignoreBundlephobia") = false →
      truthy (cacheGet c ("bundlephobia-" ++ p)) = false →
      fetch (bundlephobiaApiUrl p) = .error e →
      (bundlephobiaPart fetch c item).result =
        .error (match e.responseStatus with
          | some st => "Bundlephobia API returned " ++ toString st ++ " for package " ++ p
          | none => "Bundlephobia failed for package " ++ p ++ ": " ++ e.msg)) ∧
    (∀ (fetch : Fetch) (c : Cache) (item : JsVal) (id p : String) (npmV : JsVal)
        (e : FetchErr),
      jsGet item "githubRepo" = .vundefined →
      jsGet item "npmPackage" = .vstr p → p ≠ "" →
      isTrueVal (jsGet item "ignoreBundlephobia") = false →
      cacheGet c ("npm-" ++ p) = npmV → truthy npmV = true →
      truthy (cacheGet c ("bundlephobia-" ++ p)) = false →
      fetch (bundlephobiaApiUrl p) = .error e →
      (enrichItem fetch c item id).result =
        .error (match e.responseStatus with
          | some st => "Bundlephobia API returned " ++ toString st ++ " for package " ++ p
          | none => "Bundlephobia failed for package " ++ p ++ ": " ++ e.msg)) := by
  have part1 : ∀ (fetch : Fetch) (c : Cache) (item : JsVal) (p : String) (e : FetchErr),
      jsGet item "npmPackage" = .vstr p → p ≠ "" →
      isTrueVal (jsGet item "ignoreBundlephobia") = false →
      truthy (cacheGet c ("bundlephobia-" ++ p)) = false →
      fetch (bundlephobiaApiUrl p) = .error e →
      (bundlephobiaPart fetch c item).result =
        .error (match e.responseStatus with
          | some st => "Bundlephobia API returned " ++ toString st ++ " for package " ++ p
          | none => "Bundlephobia failed for package " ++ p ++ ": " ++ e.msg) := by
    intro fetch c item p e hnpm hp hign hmiss hfetch
    have htp : truthy (JsVal.vstr p) = true := by
      simp [truthy, hp]
    simp [bundlephobiaPart, hnpm, htp, hign, jsToString, hmiss, hfetch]
  refine ⟨part1, ?_⟩
  intro fetch c item id p npmV e hgh hnpm hp hign hc htn hmiss hfetch
  have hghskip : githubPart fetch c item id = ⟨.ok none, c, []⟩ := by
    simp [githubPart, hgh, truthy]
  have htp : truthy (JsVal.vstr p) = true := by
    simp [truthy, hp]
  have hnpmStep : npmPart fetch c item = ⟨.ok (some npmV), c, [.cacheRead ("npm-" ++ p)]⟩ := by
    simp [npmPart, hnpm, htp, jsToString, hc, htn]
  have hnpm2 : jsGet (objSet item "npm" npmV) "npmPackage" = .vstr p := by
    rw [jsGet_objSet_ne item "npm" "npmPackage" _ (by decide), hnpm]
  have hign2 : isTrueVal (jsGet (objSet item "npm" npmV) "ignoreBundlephobia") = false := by
    rw [jsGet_objSet_ne item "npm" "ignoreBundlephobia" _ (by decide)]
    exact hign
  have hbp := part1 fetch c (objSet item "npm" npmV) p e hnpm2 hp hign2 hmiss hfetch
  cases hbpe : bundlephobiaPart fetch c (objSet item "npm" npmV) with
  | mk result cache events =>
    rw [hbpe] at hbp
    simp only at hbp
    simp [enrichItem, mergeBlock, hghskip, hnpmStep, hbpe, hbp]

/-- A fetcher rejecting with an HTTP 500 response. -/
def fetchBp500 : Fetch :=
  fun _ => .error ⟨"Error: Request failed with status code 500", some 500⟩

/-- Witness for C7: a 500 rejection of the Bundlephobia request fails
the sub-procedure and the whole record with the package-naming error. -/
theorem c7_bundlephobia_error_witness :
    (bundlephobiaPart fetchBp500 npmOnlyCache bpRunItem).result =
      .error "Bundlephobia API returned 500 for package foo" ∧
    (enrichItem fetchBp500 npmOnlyCache bpRunItem "lib").result =
      .error "Bundlephobia API returned 500 for package foo" :=
  ⟨c7_bundlephobia_error_fails_record.1 fetchBp500 npmOnlyCache bpRunItem "foo"
      ⟨"Error: Request failed with status code 500", some 500⟩ rfl (by decide) rfl rfl rfl,
   c7_bundlephobia_error_fails_record.2 fetchBp500 npmOnlyCache bpRunItem "lib" "foo"
      npmVal ⟨"Error: Request failed with status code 500", some 500⟩ rfl rfl (by decide)
      rfl rfl rfl rfl rfl⟩

/-! ## Claims C8, C9, C10: the aggregate pipeline -/

/-- Whether a trace contains no cache write. -/
def noWrites (ev : List Event) : Bool :=
  ev.all (fun e => !isWriteEvent e)

theorem noWrites_append (a b : List Event) :
    noWrites (a ++ b) = (noWrites a && noWrites b) := by
  simp [noWrites, List.all_append]

/-- Splitting a successful prefix off a `runFiles` run. -/
theorem runFiles_append (featureKeys : List String) (fetch : Fetch)
    (pre rest : List SourceFile) (c c1 : Cache) (its : List JsVal) (evs : List Event)
    (h : runFiles featureKeys fetch c pre = ⟨.ok its, c1, evs⟩) :
    runFiles featureKeys fetch c (pre ++ rest) =
      ⟨(runFiles featureKeys fetch c1 rest).result.map (fun more => its ++ more),
       (runFiles featureKeys fetch c1 rest).cache,
       evs ++ (runFiles featureKeys fetch c1 rest).events⟩ := by
  induction pre generalizing c its evs with
  | nil =>
    simp only [runFiles] at h
    injection h with h1 h2 h3
    injection h1 with h1
    subst h1 h2 h3
    cases hr : runFiles featureKeys fetch c rest with
    | mk r2 c2 ev2 => cases r2 <;> simp_all [Except.map]
  | cons f tl ih =>
    simp only [List.cons_append, runFiles] at h ⊢
    cases hpf : processFile featureKeys fetch c f with
    | mk r c' ev =>
      rw [hpf] at h
      cases r with
      | error e =>
        dsimp only at h
        injection h with h1 h2 h3
        exact absurd h1 (by simp)
      | ok item =>
        dsimp only at h ⊢
        cases hrun : runFiles featureKeys fetch c' tl with
        | mk r2 c2 ev2 =>
          rw [hrun] at h
          cases r2 with
          | error e =>
            dsimp only at h
            injection h with h1 h2 h3
            exact absurd h1 (by simp)
          | ok items2 =>
            dsimp only at h
            injection h with h1 h2 h3
            injection h1 with h1
            subst h2 h3
            subst h1
            have ihr := ih c' items2 ev2 hrun
            simp only [List.append_eq]
            rw [ihr]
            cases hr3 : (runFiles featureKeys fetch c2 rest).result <;>
              simp [hr3, Except.map, List.append_assoc]

/-- A successful `runFiles` produces one record per file. -/
theorem runFiles_ok_length (featureKeys : List String) (fetch : Fetch)
    (files : List SourceFile) (c c1 : Cache) (its : List JsVal) (evs : List Event)
    (h : runFiles featureKeys fetch c files = ⟨.ok its, c1, evs⟩) :
    its.length = files.length := by
  induction files generalizing c its evs with
  | nil =>
    simp only [runFiles] at h
    injection h with h1 h2 h3
    injection h1 with h1
    subst h1
    rfl
  | cons f tl ih =>
    simp only [runFiles] at h
    cases hpf : processFile featureKeys fetch c f with
    | mk r c' ev =>
      rw [hpf] at h
      cases r with
      | error e =>
        dsimp only at h
        injection h with h1 h2 h3
        exact absurd h1 (by simp)
      | ok item =>
        dsimp only at h
        cases hrun : runFiles featureKeys fetch c' tl with
        | mk r2 c2 ev2 =>
          rw [hrun] at h
          cases r2 with
          | error e =>
            dsimp only at h
            injection h with h1 h2 h3
            exact absurd h1 (by simp)
          | ok items2 =>
            dsimp only at h
            injection h with h1 h2 h3
            injection h1 with h1
            subst h1 h2
            simp [ih c' items2 ev2 hrun]

/-- Claim C10: whenever every per-file task completes successfully, the
number of collected records equals the number of discovered files, so
the final completeness check passes and `getLibraries` never produces
the "Incomplete data" error — it returns the collected records
unchanged. -/
theorem c10_completeness_check_unreachable (featureKeys : List String) (fetch : Fetch)
    (files : List SourceFile) (c c1 : Cache) (its : List JsVal) (evs : List Event)
    (h : runFiles featureKeys fetch c files = ⟨.ok its, c1, evs⟩) :
    getLibraries featureKeys fetch files c = ⟨.ok its, c1, evs⟩ ∧
      its.length = files.length := by
  have hlen := runFiles_ok_length featureKeys fetch files c c1 its evs h
  refine ⟨?_, hlen⟩
  simp [getLibraries, h, hlen]

/-- A minimal valid source document with no enrichment fields. -/
def plainDoc : JsVal := .vobj [("title", .vstr "T"), ("description", .vstr "D")]

/-- Its source file. -/
def plainFile : SourceFile := ⟨"data/a.yml", "a", plainDoc⟩

/-- Witness for C10 on a one-file run. -/
theorem c10_completeness_witness :
    getLibraries Features fetchNone [plainFile] [] =
      ⟨.ok [okValue (processFile Features fetchNone [] plainFile).result], [], []⟩ ∧
    [okValue (processFile Features fetchNone [] plainFile).result].length =
      [plainFile].length :=
  c10_completeness_check_unreachable Features fetchNone [plainFile] [] []
    [okValue (processFile Features fetchNone [] plainFile).result] [] rfl

/-- Claim C8: if every file before `f` succeeds and `f`'s declared
GitHub repo misses the cache and its metadata fetch is rejected (for
example a 404), the whole aggregate run fails, and the error names the
failing record's id and the GitHub-data source. -/
theorem c8_repo_fetch_failure_fails_run (featureKeys : List String) (fetch : Fetch)
    (pre post : List SourceFile) (f : SourceFile) (c c1 : Cache) (its : List JsVal)
    (evs : List Event) (item : JsVal) (r : String) (e : FetchErr)
    (hpre : runFiles featureKeys fetch c pre = ⟨.ok its, c1, evs⟩)
    (hyaml : exOk (validateYaml featureKeys f.doc) = true)
    (hitem : validateLibraryInfo featureKeys
      (.vobj (spreadInto [("id", .vstr f.id)] (objFields f.doc))) = .ok item)
    (hrepo : jsGet item "githubRepo" = .vstr r) (hr : r ≠ "")
    (hmiss : truthy (cacheGet c1 ("gh-" ++ r ++ "-info")) = false)
    (hfetch : fetch (repoApiUrl r) = .error e) :
    (getLibraries featureKeys fetch (pre ++ f :: post) c).result =
      .error ("Error getting GitHub data for " ++ f.id ++ ": " ++ e.msg) := by
  have htr : truthy (jsGet item "githubRepo") = true := by
    simp [hrepo, truthy, hr]
  have hstr : jsToString (jsGet item "githubRepo") = r := by
    rw [hrepo]
    rfl
  have hinfo : githubInfo fetch c1 r f.id =
      ⟨.error ("Error getting GitHub data for " ++ f.id ++ ": " ++ e.msg), c1,
        [.cacheRead ("gh-" ++ r ++ "-info"), .fetch (repoApiUrl r)]⟩ := by
    simp [githubInfo, hmiss, hfetch]
  have hpart : githubPart fetch c1 item f.id =
      ⟨.error ("Error getting GitHub data for " ++ f.id ++ ": " ++ e.msg), c1,
        [.cacheRead ("gh-" ++ r ++ "-info"), .fetch (repoApiUrl r)]⟩ := by
    simp [githubPart, htr, hstr, hinfo]
  have henrich : enrichItem fetch c1 item f.id =
      ⟨.error ("Error getting GitHub data for " ++ f.id ++ ": " ++ e.msg), c1,
        [.cacheRead ("gh-" ++ r ++ "-info"), .fetch (repoApiUrl r)]⟩ := by
    simp [enrichItem, mergeBlock, hpart]
  obtain ⟨w, hw⟩ : ∃ w, validateYaml featureKeys f.doc = .ok w := by
    cases hv : validateYaml featureKeys f.doc with
    | ok w => exact ⟨w, rfl⟩
    | error e2 =>
      rw [hv] at hyaml
      simp [exOk] at hyaml
  have hpf : processFile featureKeys fetch c1 f =
      ⟨.error ("Error getting GitHub data for " ++ f.id ++ ": " ++ e.msg), c1,
        [.cacheRead ("gh-" ++ r ++ "-info"), .fetch (repoApiUrl r)]⟩ := by
    simp [processFile, hw, hitem, henrich]
  have hsuffix : runFiles featureKeys fetch c1 (f :: post) =
      ⟨.error ("Error getting GitHub data for " ++ f.id ++ ": " ++ e.msg), c1,
        [.cacheRead ("gh-" ++ r ++ "-info"), .fetch (repoApiUrl r)]⟩ := by
    simp [runFiles, hpf]
  have happ := runFiles_append featureKeys fetch pre (f :: post) c c1 its evs hpre
  rw [hsuffix] at happ
  simp [getLibraries, happ, Except.map]

/-- A source document declaring a GitHub repo. -/
def ghDoc : JsVal :=
  .vobj [("title", .vstr "T"), ("description", .vstr "D"), ("githubRepo", .vstr "u/r")]

/-- Its source file. -/
def ghFile : SourceFile := ⟨"data/b.yml", "b", ghDoc⟩

/-- Witness for C8: a two-file run where the second file's repo fetch
is rejected fails with the error naming that record and its source. -/
theorem c8_repo_fetch_failure_witness :
    (getLibraries Features fetchNone [plainFile, ghFile] []).result =
      .error "Error getting GitHub data for b: Error: network disabled" :=
  c8_repo_fetch_failure_fails_run Features fetchNone [plainFile] [] ghFile [] []
    [okValue (processFile Features fetchNone [] plainFile).result] []
    (okValue (validateLibraryInfo Features
      (.vobj (spreadInto [("id", .vstr "b")] (objFields ghDoc))))) "u/r"
    ⟨"Error: network disabled", none⟩ rfl rfl rfl rfl (by decide) rfl rfl

/-! ## Claim C9: warm-cache idempotence

A successful sub-procedure that wrote nothing to the cache must have
hit the cache (every fetch path either fails or writes), so it left
the cache unchanged and its outcome does not depend on the fetcher. -/

theorem githubInfo_no_write (fetch : Fetch) (c : Cache) (repo id : String)
    (data : JsVal) (c' : Cache) (ev : List Event)
    (h : githubInfo fetch c repo id = ⟨.ok data, c', ev⟩)
    (hw : noWrites ev = true) :
    c' = c ∧ ∀ fetch2 : Fetch, githubInfo fetch2 c repo id = ⟨.ok data, c', ev⟩ := by
  by_cases ht : truthy (cacheGet c ("gh-" ++ repo ++ "-info")) = true
  · have hh : githubInfo fetch c repo id =
        ⟨.ok (cacheGet c ("gh-" ++ repo ++ "-info")), c,
          [.cacheRead ("gh-" ++ repo ++ "-info")]⟩ := by
      simp [githubInfo, ht]
    rw [hh] at h
    injection h with h1 h2 h3
    injection h1 with h1
    subst h1 h2 h3
    exact ⟨rfl, fun fetch2 => by simp [githubInfo, ht]⟩
  · rw [Bool.not_eq_true] at ht
    cases hf : fetch (repoApiUrl repo) with
    | error e =>
      have hh : githubInfo fetch c repo id =
          ⟨.error ("Error getting GitHub data for " ++ id ++ ": " ++ e.msg), c,
            [.cacheRead ("gh-" ++ repo ++ "-info"), .fetch (repoApiUrl repo)]⟩ := by
        simp [githubInfo, ht, hf]
      rw [hh] at h
      injection h with h1 h2 h3
      exact absurd h1 (by simp)
    | ok res =>
      by_cases hn : jsStrEq (jsGet res.data "full_name") repo = true
      · have hh : githubInfo fetch c repo id =
            ⟨.ok res.data, cacheSet c ("gh-" ++ repo ++ "-info") res.data,
              [.cacheRead ("gh-" ++ repo ++ "-info"), .fetch (repoApiUrl repo),
               .cacheWrite ("gh-" ++ repo ++ "-info")]⟩ := by
          simp [githubInfo, ht, hf, hn]
        rw [hh] at h
        injection h with h1 h2 h3
        rw [← h3] at hw
        simp [noWrites, isWriteEvent] at hw
      · rw [Bool.not_eq_true] at hn
        have hh : githubInfo fetch c repo id =
            ⟨.error ("Error getting GitHub data for " ++ id ++ ": Error: GitHub repo " ++
                repo ++ " has moved to " ++ jsToString (jsGet res.data "full_name")), c,
              [.cacheRead ("gh-" ++ repo ++ "-info"), .fetch (repoApiUrl repo)]⟩ := by
          simp [githubInfo, ht, hf, hn]
        rw [hh] at h
        injection h with h1 h2 h3
        exact absurd h1 (by simp)

theorem githubStats_no_write (fetch : Fetch) (c : Cache) (repo id : String)
    (stats : JsVal) (c' : Cache) (ev : List Event)
    (h : githubStats fetch c repo id = ⟨.ok stats, c', ev⟩)
    (hw : noWrites ev = true) :
    c' = c ∧ ∀ fetch2 : Fetch, githubStats fetch2 c repo id = ⟨.ok stats, c', ev⟩ := by
  by_cases ht : truthy (cacheGet c ("gh-" ++ repo ++ "-contributors")) = true
  · have hh : githubStats fetch c repo id =
        ⟨.ok (cacheGet c ("gh-" ++ repo ++ "-contributors")), c,
          [.cacheRead ("gh-" ++ repo ++ "-contributors")]⟩ := by
      simp [githubStats, ht]
    rw [hh] at h
    injection h with h1 h2 h3
    injection h1 with h1
    subst h1 h2 h3
    exact ⟨rfl, fun fetch2 => by simp [githubStats, ht]⟩
  · rw [Bool.not_eq_true] at ht
    exfalso
    cases hf : fetch (contributorsUrl repo) with
    | error e =>
      have hh : githubStats fetch c repo id =
          ⟨.error ("Error getting GitHub stats for " ++ id ++ ": " ++ e.msg), c,
            [.cacheRead ("gh-" ++ repo ++ "-contributors"), .fetch (contributorsUrl repo)]⟩ := by
        simp [githubStats, ht, hf]
      rw [hh] at h
      injection h with h1 h2 h3
      exact absurd h1 (by simp)
    | ok res1 =>
      by_cases hcond : (jsLtNum (jsLen res1.data) 100 ||
          !(match res1.link with
            | none => false
            | some s => s ≠ "")) = true
      · have hh : githubStats fetch c repo id =
            ⟨.ok (JsVal.vobj [("contributors", jsLen res1.data)]),
              cacheSet c ("gh-" ++ repo ++ "-contributors")
                (JsVal.vobj [("contributors", jsLen res1.data)]),
              [.cacheRead ("gh-" ++ repo ++ "-contributors"), .fetch (contributorsUrl repo),
               .cacheWrite ("gh-" ++ repo ++ "-contributors")]⟩ := by
          simp only [githubStats, ht, Bool.false_eq_true, if_false, hf, hcond, if_true]
        rw [hh] at h
        injection h with h1 h2 h3
        rw [← h3] at hw
        simp [noWrites, isWriteEvent] at hw
      · rw [Bool.not_eq_true] at hcond
        cases hf2 : fetch (contributorsUrl repo ++ "&page=" ++
            toString (match findPage none
                ((List.find? (fun s => containsSub ("rel=" ++ "\"last\"").data s)
                  (match res1.link with
                  | none => []
                  | some s => splitComma s.data)).getD []) with
              | some n => (n : Int)
              | none => 0)) with
        | error e =>
          have hh : (githubStats fetch c repo id).result =
              .error ("Error getting GitHub stats for " ++ id ++ ": " ++ e.msg) := by
            simp only [githubStats, ht, Bool.false_eq_true, if_false, hf, hcond, hf2]
          rw [h] at hh
          exact absurd hh (by simp)
        | ok res2 =>
          have hh : (githubStats fetch c repo id).events =
              [.cacheRead ("gh-" ++ repo ++ "-contributors"), .fetch (contributorsUrl repo),
               .fetch (contributorsUrl repo ++ "&page=" ++
                 toString (match findPage none
                     ((List.find? (fun s => containsSub ("rel=" ++ "\"last\"").data s)
                       (match res1.link with
                       | none => []
                       | some s => splitComma s.data)).getD []) with
                   | some n => (n : Int)
                   | none => 0)),
               .cacheWrite ("gh-" ++ repo ++ "-contributors")] := by
            simp only [githubStats, ht, Bool.false_eq_true, if_false, hf, hcond, hf2]
          rw [h] at hh
          simp only at hh
          rw [hh] at hw
          simp [noWrites, isWriteEvent] at hw

theorem npmPart_no_write (fetch : Fetch) (c : Cache) (item : JsVal)
    (n : Option JsVal) (c' : Cache) (ev : List Event)
    (h : npmPart fetch c item = ⟨.ok n, c', ev⟩)
    (hw : noWrites ev = true) :
    c' = c ∧ ∀ fetch2 : Fetch, npmPart fetch2 c item = ⟨.ok n, c', ev⟩ := by
  by_cases hg : truthy (jsGet item "npmPackage") = true
  · by_cases ht : truthy (cacheGet c
        ("npm-" ++ jsToString (jsGet item "npmPackage"))) = true
    · have hh : npmPart fetch c item =
          ⟨.ok (some (cacheGet c ("npm-" ++ jsToString (jsGet item "npmPackage")))), c,
            [.cacheRead ("npm-" ++ jsToString (jsGet item "npmPackage"))]⟩ := by
        simp [npmPart, hg, ht]
      rw [hh] at h
      injection h with h1 h2 h3
      injection h1 with h1
      subst h1 h2 h3
      exact ⟨rfl, fun fetch2 => by simp [npmPart, hg, ht]⟩
    · rw [Bool.not_eq_true] at ht
      exfalso
      cases hf : fetch (npmApiUrl (jsToString (jsGet item "npmPackage"))) with
      | error e =>
        have hh : (npmPart fetch c item).result =
            .error ("Error getting NPM data for " ++ jsToString (jsGet item "npmPackage") ++
              ": " ++ e.msg) := by
          simp [npmPart, hg, ht, hf]
        rw [h] at hh
        exact absurd hh (by simp)
      | ok res =>
        have hh : (npmPart fetch c item).events =
            [.cacheRead ("npm-" ++ jsToString (jsGet item "npmPackage")),
             .fetch (npmApiUrl (jsToString (jsGet item "npmPackage"))),
             .cacheWrite ("npm-" ++ jsToString (jsGet item "npmPackage"))] := by
          simp [npmPart, hg, ht, hf]
        rw [h] at hh
        simp only at hh
        rw [hh] at hw
        simp [noWrites, isWriteEvent] at hw
  · rw [Bool.not_eq_true] at hg
    have hh : npmPart fetch c item = ⟨.ok none, c, []⟩ := by
      simp [npmPart, hg]
    rw [hh] at h
    injection h with h1 h2 h3
    injection h1 with h1
    subst h1 h2 h3
    exact ⟨rfl, fun fetch2 => by simp [npmPart, hg]⟩

theorem bundlephobiaPart_no_write (fetch : Fetch) (c : Cache) (item : JsVal)
    (b : Option JsVal) (c' : Cache) (ev : List Event)
    (h : bundlephobiaPart fetch c item = ⟨.ok b, c', ev⟩)
    (hw : noWrites ev = true) :
    c' = c ∧ ∀ fetch2 : Fetch, bundlephobiaPart fetch2 c item = ⟨.ok b, c', ev⟩ := by
  by_cases hg : (truthy (jsGet item "npmPackage") &&
      !(isTrueVal (jsGet item "ignoreBundlephobia"))) = true
  · by_cases ht : truthy (cacheGet c
        ("bundlephobia-" ++ jsToString (jsGet item "npmPackage"))) = true
    · have hh : bundlephobiaPart fetch c item =
          ⟨.ok (some (cacheGet c
              ("bundlephobia-" ++ jsToString (jsGet item "npmPackage")))), c,
            [.cacheRead ("bundlephobia-" ++ jsToString (jsGet item "npmPackage"))]⟩ := by
        simp [bundlephobiaPart, hg, ht]
      rw [hh] at h
      injection h with h1 h2 h3
      injection h1 with h1
      subst h1 h2 h3
      exact ⟨rfl, fun fetch2 => by simp [bundlephobiaPart, hg, ht]⟩
    · rw [Bool.not_eq_true] at ht
      exfalso
      cases hf : fetch (bundlephobiaApiUrl (jsToString (jsGet item "npmPackage"))) with
      | error e =>
        have hh : (bundlephobiaPart fetch c item).result =
            .error (match e.responseStatus with
              | some st => "Bundlephobia API returned " ++ toString st ++ " for package " ++
                  jsToString (jsGet item "npmPackage")
              | none => "Bundlephobia failed for package " ++
                  jsToString (jsGet item "npmPackage") ++ ": " ++ e.msg) := by
          simp [bundlephobiaPart, hg, ht, hf]
        rw [h] at hh
        exact absurd hh (by simp)
      | ok res =>
        have hh : (bundlephobiaPart fetch c item).events =
            [.cacheRead ("bundlephobia-" ++ jsToString (jsGet item "npmPackage")),
             .fetch (bundlephobiaApiUrl (jsToString (jsGet item "npmPackage"))),
             .cacheWrite ("bundlephobia-" ++ jsToString (jsGet item "npmPackage"))] := by
          simp [bundlephobiaPart, hg, ht, hf]
        rw [h] at hh
        simp only at hh
        rw [hh] at hw
        simp [noWrites, isWriteEvent] at hw
  · rw [Bool.not_eq_true] at hg
    have hh : bundlephobiaPart fetch c item = ⟨.ok none, c, []⟩ := by
      simp [bundlephobiaPart, hg]
    rw [hh] at h
    injection h with h1 h2 h3
    injection h1 with h1
    subst h1 h2 h3
    exact ⟨rfl, fun fetch2 => by simp [bundlephobiaPart, hg]⟩

theorem githubPart_no_write (fetch : Fetch) (c : Cache) (item : JsVal) (id : String)
    (g : Option JsVal) (c' : Cache) (ev : List Event)
    (h : githubPart fetch c item id = ⟨.ok g, c', ev⟩)
    (hw : noWrites ev = true) :
    c' = c ∧ ∀ fetch2 : Fetch, githubPart fetch2 c item id = ⟨.ok g, c', ev⟩ := by
  by_cases ht : truthy (jsGet item "githubRepo") = true
  · simp only [githubPart, ht, if_true] at h
    cases hinfo : githubInfo fetch c (jsToString (jsGet item "githubRepo")) id with
    | mk ri ci evi =>
      rw [hinfo] at h
      cases ri with
      | error e =>
        dsimp only at h
        injection h with h1 h2 h3
        exact absurd h1 (by simp)
      | ok data =>
        dsimp only at h
        cases hstats : githubStats fetch ci (jsToString (jsGet item "githubRepo")) id with
        | mk rs cs evs2 =>
          rw [hstats] at h
          cases rs with
          | error e =>
            dsimp only at h
            injection h with h1 h2 h3
            exact absurd h1 (by simp)
          | ok stats =>
            dsimp only at h
            injection h with h1 h2 h3
            injection h1 with h1
            subst h1 h2 h3
            rw [noWrites_append] at hw
            obtain ⟨hw1, hw2⟩ := by exact Bool.and_eq_true_iff.mp hw
            obtain ⟨hceq, hinfo2⟩ :=
              githubInfo_no_write fetch c (jsToString (jsGet item "githubRepo")) id
                data ci evi hinfo hw1
            have hstats' : githubStats fetch c (jsToString (jsGet item "githubRepo")) id =
                ⟨.ok stats, cs, evs2⟩ := hceq ▸ hstats
            obtain ⟨hceq2, hstats2⟩ :=
              githubStats_no_write fetch c (jsToString (jsGet item "githubRepo")) id
                stats cs evs2 hstats' hw2
            refine ⟨hceq2, fun fetch2 => ?_⟩
            simp [githubPart, ht, hinfo2 fetch2, hceq, hstats2 fetch2]
  · rw [Bool.not_eq_true] at ht
    have hh : githubPart fetch c item id = ⟨.ok none, c, []⟩ := by
      simp [githubPart, ht]
    rw [hh] at h
    injection h with h1 h2 h3
    injection h1 with h1
    subst h1 h2 h3
    exact ⟨rfl, fun fetch2 => by simp [githubPart, ht]⟩

theorem enrichItem_no_write (fetch : Fetch) (c : Cache) (item : JsVal) (id : String)
    (merged : JsVal) (c' : Cache) (ev : List Event)
    (h : enrichItem fetch c item id = ⟨.ok merged, c', ev⟩)
    (hw : noWrites ev = true) :
    c' = c ∧ ∀ fetch2 : Fetch, enrichItem fetch2 c item id = ⟨.ok merged, c', ev⟩ := by
  simp only [enrichItem] at h
  cases hg : githubPart fetch c item id with
  | mk rg cg evg =>
    rw [hg] at h
    cases rg with
    | error e =>
      dsimp only at h
      injection h with h1 h2 h3
      exact absurd h1 (by simp)
    | ok g =>
      dsimp only at h
      cases hn : npmPart fetch cg (mergeBlock item "github" g) with
      | mk rn cn evn =>
        rw [hn] at h
        cases rn with
        | error e =>
          dsimp only at h
          injection h with h1 h2 h3
          exact absurd h1 (by simp)
        | ok n =>
          dsimp only at h
          cases hb : bundlephobiaPart fetch cn
              (mergeBlock (mergeBlock item "github" g) "npm" n) with
          | mk rb cb evb =>
            rw [hb] at h
            cases rb with
            | error e =>
              dsimp only at h
              injection h with h1 h2 h3
              exact absurd h1 (by simp)
            | ok b =>
              dsimp only at h
              injection h with h1 h2 h3
              injection h1 with h1
              subst h1 h2 h3
              rw [noWrites_append, noWrites_append] at hw
              obtain ⟨hw12, hw3⟩ := by exact Bool.and_eq_true_iff.mp hw
              obtain ⟨hw1, hw2⟩ := by exact Bool.and_eq_true_iff.mp hw12
              obtain ⟨hcg, hg2⟩ := githubPart_no_write fetch c item id g cg evg hg hw1
              have hn' : npmPart fetch c (mergeBlock item "github" g) =
                  ⟨.ok n, cn, evn⟩ := hcg ▸ hn
              obtain ⟨hcn, hn2⟩ := npmPart_no_write fetch c (mergeBlock item "github" g)
                n cn evn hn' hw2
              have hb' : bundlephobiaPart fetch c
                  (mergeBlock (mergeBlock item "github" g) "npm" n) =
                  ⟨.ok b, cb, evb⟩ := hcn ▸ hb
              obtain ⟨hcb, hb2⟩ := bundlephobiaPart_no_write fetch c
                (mergeBlock (mergeBlock item "github" g) "npm" n) b cb evb hb' hw3
              refine ⟨hcb, fun fetch2 => ?_⟩
              simp [enrichItem, hg2 fetch2, hcg, hn2 fetch2, hcn, hb2 fetch2]

theorem processFile_no_write (featureKeys : List String) (fetch : Fetch) (c : Cache)
    (f : SourceFile) (pushed : JsVal) (c' : Cache) (ev : List Event)
    (h : processFile featureKeys fetch c f = ⟨.ok pushed, c', ev⟩)
    (hw : noWrites ev = true) :
    c' = c ∧ ∀ fetch2 : Fetch, processFile featureKeys fetch2 c f = ⟨.ok pushed, c', ev⟩ := by
  simp only [processFile] at h
  cases hv : validateYaml featureKeys f.doc with
  | error e =>
    rw [hv] at h
    dsimp only at h
    injection h with h1 h2 h3
    exact absurd h1 (by simp)
  | ok w =>
    rw [hv] at h
    dsimp only at h
    cases hli : validateLibraryInfo featureKeys
        (.vobj (spreadInto [("id", .vstr f.id)] (objFields f.doc))) with
    | error e =>
      rw [hli] at h
      dsimp only at h
      injection h with h1 h2 h3
      exact absurd h1 (by simp)
    | ok item =>
      rw [hli] at h
      dsimp only at h
      cases he : enrichItem fetch c item f.id with
      | mk re ce eve =>
        rw [he] at h
        cases re with
        | error e =>
          dsimp only at h
          injection h with h1 h2 h3
          exact absurd h1 (by simp)
        | ok merged =>
          dsimp only at h
          cases hfin : validateLibraryInfo featureKeys merged with
          | error e =>
            rw [hfin] at h
            dsimp only at h
            injection h with h1 h2 h3
            exact absurd h1 (by simp)
          | ok fin =>
            rw [hfin] at h
            dsimp only at h
            injection h with h1 h2 h3
            injection h1 with h1
            subst h1 h2 h3
            obtain ⟨hce, he2⟩ := enrichItem_no_write fetch c item f.id merged ce eve he hw
            refine ⟨hce, fun fetch2 => ?_⟩
            simp [processFile, hv, hli, he2 fetch2, hfin]

theorem runFiles_no_write (featureKeys : List String) (fetch : Fetch) (c : Cache)
    (files : List SourceFile) (its : List JsVal) (c1 : Cache) (evs : List Event)
    (h : runFiles featureKeys fetch c files = ⟨.ok its, c1, evs⟩)
    (hw : noWrites evs = true) :
    c1 = c ∧ ∀ fetch2 : Fetch, runFiles featureKeys fetch2 c files = ⟨.ok its, c1, evs⟩ := by
  induction files generalizing c its evs with
  | nil =>
    simp only [runFiles] at h
    injection h with h1 h2 h3
    injection h1 with h1
    subst h1 h3 h2
    exact ⟨rfl, fun fetch2 => rfl⟩
  | cons f tl ih =>
    simp only [runFiles] at h
    cases hpf : processFile featureKeys fetch c f with
    | mk r c' ev =>
      rw [hpf] at h
      cases r with
      | error e =>
        dsimp only at h
        injection h with h1 h2 h3
        exact absurd h1 (by simp)
      | ok item =>
        dsimp only at h
        cases hrun : runFiles featureKeys fetch c' tl with
        | mk r2 c2 ev2 =>
          rw [hrun] at h
          cases r2 with
          | error e =>
            dsimp only at h
            injection h with h1 h2 h3
            exact absurd h1 (by simp)
          | ok items2 =>
            dsimp only at h
            injection h with h1 h2 h3
            injection h1 with h1
            subst h1 h3 h2
            rw [noWrites_append] at hw
            obtain ⟨hw1, hw2⟩ := by exact Bool.and_eq_true_iff.mp hw
            obtain ⟨hc', hpf2⟩ :=
              processFile_no_write featureKeys fetch c f item c' ev hpf hw1
            obtain ⟨hc1, hrun2⟩ := ih c' items2 ev2 hrun hw2
            refine ⟨hc1.trans hc', fun fetch2 => ?_⟩
            simp [runFiles, hpf2 fetch2, hrun2 fetch2]

/-- Claim C9: a run that succeeds purely from the cache (its trace
contains no cache write — which is what happens when every needed key
is already present) leaves the cache exactly as it found it, and
re-running the pipeline from the returned cache — with any fetcher at
all, i.e. regardless of the external services — produces the identical
result: the same records, with the same contents, in the same order,
and the same trace.  Hence two warm-cache runs over unchanged source
files are byte-for-byte identical. -/
theorem c9_warm_cache_idempotent (featureKeys : List String) (fetch : Fetch)
    (files : List SourceFile) (c : Cache) (items : List JsVal) (c1 : Cache)
    (evs : List Event)
    (h : getLibraries featureKeys fetch files c = ⟨.ok items, c1, evs⟩)
    (hw : noWrites evs = true) :
    c1 = c ∧ ∀ fetch2 : Fetch,
      getLibraries featureKeys fetch2 files c1 = ⟨.ok items, c1, evs⟩ := by
  simp only [getLibraries] at h
  cases hr : runFiles featureKeys fetch c files with
  | mk rr cr evr =>
    rw [hr] at h
    cases rr with
    | error e =>
      dsimp only at h
      injection h with h1 h2 h3
      exact absurd h1 (by simp)
    | ok its0 =>
      dsimp only at h
      by_cases hlen : its0.length = files.length
      · rw [if_pos hlen] at h
        injection h with h1 h2 h3
        injection h1 with h1
        rw [h1, h2, h3] at hr
        rw [h1] at hlen
        obtain ⟨hc, hrun2⟩ :=
          runFiles_no_write featureKeys fetch c files items c1 evs hr hw
        refine ⟨hc, fun fetch2 => ?_⟩
        rw [hc]
        simp [getLibraries, hrun2 fetch2, hlen, hc]
      · rw [if_neg hlen] at h
        injection h with h1 h2 h3
        exact absurd h1 (by simp)

/-- Witness for C9: a warm-cache run re-executed from the returned
cache with a *different* fetcher (one that would answer every request
with an HTTP 500) still returns exactly the same collection, cache and
trace. -/
theorem c9_warm_cache_idempotent_witness :
    getLibraries Features fetchBp500 [warmFile] warmCache =
      ⟨.ok [okValue (processFile Features fetchNone warmCache warmFile).result],
       warmCache,
       [.cacheRead "gh-u/r-info", .cacheRead "gh-u/r-contributors",
        .cacheRead "npm-foo", .cacheRead "bundlephobia-foo"]⟩ :=
  (c9_warm_cache_idempotent Features fetchNone [warmFile] warmCache
      [okValue (processFile Features fetchNone warmCache warmFile).result] warmCache
      [.cacheRead "gh-u/r-info", .cacheRead "gh-u/r-contributors",
       .cacheRead "npm-foo", .cacheRead "bundlephobia-foo"] rfl rfl).2 fetchBp500
